import Mathlib

/-! # Token authentication and access control of the quiz-app API

A shallow embedding of the Go packages `pkg/entity`, `pkg/middleware/access-control`,
`pkg/user` and `api/handlers`, followed by theorems about them.

Conventions of the embedding.

* A Go `error` value is represented by the text its `Error()` method returns
  (`GoError`); this text is the only thing the program ever observes of a
  foreign error.
* A Go result `(*T, *entity.AppError)` is a pair of `Option`s, so that the
  nil-ness of each component is explicit.
* A run-time panic (nil dereference) is the `Except.error` of `Except Panic`.
* The process environment, the clock, the database and the third-party
  libraries (`jwt-go`, `bcrypt`, `encoding/json`) are explicit arguments.
* `int64` values are `Int`: the only arithmetic is `time.Now() + 2h`, on clock
  readings far from the `int64` bounds.
-/

/-- A Go `error` value, represented by its `Error()` text. -/
abbrev GoError := String

/-- A run-time panic of the Go program. -/
inductive Panic where
  | nilDereference
  deriving DecidableEq, Repr

/-! ## Package `time` -/

namespace time

/-- A `time.Time`: seconds since the Unix epoch and nanoseconds within the
second. -/
structure Time where
  sec : Int
  nsec : Nat := 0
  deriving DecidableEq, Repr

/-- The zero value `time.Time{}`: January 1, year 1, 00:00:00 UTC. -/
def Time.zero : Time := { sec := -62135596800 }

/-- The method `Unix`: seconds since the epoch. -/
def Time.Unix (t : Time) : Int := t.sec

/-- The duration `time.Hour`, in seconds. -/
def Hour : Int := 3600

/-- The method `Add`, for a duration of whole seconds. -/
def Time.Add (t : Time) (seconds : Int) : Time := { t with sec := t.sec + seconds }

end time

/-! ## Package `jwt` (github.com/dgrijalva/jwt-go), first part -/

namespace jwt

/-- Signing methods registered by jwt-go, as returned by `GetSigningMethod`. -/
inductive SigningMethod where
  | HS256 | HS384 | HS512
  | RS256 | RS384 | RS512
  | ES256 | ES384 | ES512
  | PS256 | PS384 | PS512
  | none
  deriving DecidableEq, Repr

/-- The type assertion `token.Method.(*jwt.SigningMethodHMAC)` succeeds. -/
def SigningMethod.isHMAC : SigningMethod → Bool
  | .HS256 | .HS384 | .HS512 => true
  | _ => false

def ValidationErrorMalformed : Nat := 1
def ValidationErrorUnverifiable : Nat := 2
def ValidationErrorSignatureInvalid : Nat := 4
def ValidationErrorAudience : Nat := 8
def ValidationErrorExpired : Nat := 16
def ValidationErrorIssuedAt : Nat := 32
def ValidationErrorIssuer : Nat := 64
def ValidationErrorNotValidYet : Nat := 128
def ValidationErrorId : Nat := 256
def ValidationErrorClaimsInvalid : Nat := 512

/-- The struct `jwt.ValidationError`; `Errors` is the `uint32` bit field. -/
structure ValidationError where
  Inner : Option GoError := Option.none
  Errors : Nat := 0
  text : String := ""
  deriving DecidableEq, Repr

def NewValidationError (errorText : String) (errorFlags : Nat) : ValidationError :=
  { text := errorText, Errors := errorFlags }

def ValidationError.Error (e : ValidationError) : String :=
  match e.Inner with
  | some inner => inner
  | Option.none => if e.text != "" then e.text else "token is invalid"

def ValidationError.valid (e : ValidationError) : Bool :=
  e.Errors == 0

/-- The struct `jwt.StandardClaims`; the time fields are Unix seconds. -/
structure StandardClaims where
  Audience : String := ""
  ExpiresAt : Int := 0
  Id : String := ""
  IssuedAt : Int := 0
  Issuer : String := ""
  NotBefore : Int := 0
  Subject : String := ""
  deriving DecidableEq, Repr

def verifyExp (exp now : Int) (required : Bool) : Bool :=
  if exp == 0 then !required else decide (now ≤ exp)

def verifyIat (iat now : Int) (required : Bool) : Bool :=
  if iat == 0 then !required else decide (now ≥ iat)

def verifyNbf (nbf now : Int) (required : Bool) : Bool :=
  if nbf == 0 then !required else decide (now ≥ nbf)

def StandardClaims.VerifyExpiresAt (c : StandardClaims) (cmp : Int) (req : Bool) : Bool :=
  verifyExp c.ExpiresAt cmp req

def StandardClaims.VerifyIssuedAt (c : StandardClaims) (cmp : Int) (req : Bool) : Bool :=
  verifyIat c.IssuedAt cmp req

def StandardClaims.VerifyNotBefore (c : StandardClaims) (cmp : Int) (req : Bool) : Bool :=
  verifyNbf c.NotBefore cmp req

/-- The method `StandardClaims.Valid`; `now` is `TimeFunc().Unix()` and
`durationString` renders a number of seconds as `time.Duration` prints it. -/
def StandardClaims.Valid (c : StandardClaims) (now : Int) (durationString : Int → String) :
    Option ValidationError :=
  let vErr : ValidationError := {}
  let vErr :=
    if c.VerifyExpiresAt now false == false then
      { vErr with
        Inner := some ("token is expired by " ++ durationString (now - c.ExpiresAt))
        Errors := vErr.Errors ||| ValidationErrorExpired }
    else vErr
  let vErr :=
    if c.VerifyIssuedAt now false == false then
      { vErr with
        Inner := some "Token used before issued"
        Errors := vErr.Errors ||| ValidationErrorIssuedAt }
    else vErr
  let vErr :=
    if c.VerifyNotBefore now false == false then
      { vErr with
        Inner := some "token is not valid yet"
        Errors := vErr.Errors ||| ValidationErrorNotValidYet }
    else vErr
  if vErr.valid then Option.none else some vErr

end jwt

/-! ## Package `entity` -/

namespace entity

/-- The allocation a `*AppError` points to: one of the four package-level
values, or an allocation made by a call of `NewAppError` or `Wrap`. -/
inductive Addr where
  | ErrSecretKey | ErrJwtCreation | ErrAppToken | ErrEntityNotFound
  | fresh
  deriving DecidableEq, Repr

/-- A non-nil `*AppError`: the struct it points to, with its address.
`Err` is the field the source calls `AppError`. -/
structure AppError where
  addr : Addr
  Err : GoError
  Msg : String
  deriving DecidableEq, Repr

def NewAppError (err : GoError) : AppError :=
  { addr := Addr.fresh, Err := err, Msg := err }

def AppError.Error (e : AppError) : String :=
  e.Msg

/-- The method `Wrap`; the message is `fmt.Sprintf("%s: [%s]", err, e.Error())`. -/
def AppError.Wrap (e : AppError) (err : GoError) : AppError :=
  { addr := Addr.fresh, Err := err, Msg := err ++ ": [" ++ e.Error ++ "]" }

def AppError.Is (e : AppError) (target : AppError) : Bool :=
  e.Error == target.Error

def ErrSecretKey : AppError :=
  { NewAppError "secret key not found" with addr := Addr.ErrSecretKey }

def ErrJwtCreation : AppError :=
  { NewAppError "unable to create jwt string" with addr := Addr.ErrJwtCreation }

def ErrAppToken : AppError :=
  { NewAppError "unable to authenticate token" with addr := Addr.ErrAppToken }

def ErrEntityNotFound : AppError :=
  { NewAppError "entity could not be found" with addr := Addr.ErrEntityNotFound }

/-- Pointer comparison `a == b` of two non-nil `*AppError`: two pointers are
equal when they point to the same package-level value; an allocation made by
`NewAppError` or `Wrap` is only ever compared with package-level values. -/
def AppError.ptrEq (a b : AppError) : Bool :=
  a.addr != Addr.fresh && a.addr == b.addr

/-- The struct `entity.JwtClaims`, with the embedded `jwt.StandardClaims`. -/
structure JwtClaims where
  Username : String := ""
  UserId : Int := 0
  StandardClaims : jwt.StandardClaims := {}
  deriving DecidableEq, Repr

/-- The method `Valid` promoted from the embedded `StandardClaims`. -/
def JwtClaims.Valid (c : JwtClaims) (now : Int) (durationString : Int → String) :
    Option jwt.ValidationError :=
  c.StandardClaims.Valid now durationString

/-- The struct `entity.User`. -/
structure User where
  Id : Int := 0
  Username : String := ""
  Password : String := ""
  CreatedAt : time.Time := time.Time.zero
  LastLoginAt : time.Time := time.Time.zero
  deriving DecidableEq, Repr

end entity

/-- The function `errors.Is(err, target)` of the standard library for a non-nil
`*entity.AppError` and a non-nil target: the pointers are compared, then the
`Is` method of `err` is asked; `AppError` has no `Unwrap` method, so the chain
ends there. -/
def errors.Is (err target : entity.AppError) : Bool :=
  err.ptrEq target || err.Is target

/-- A value of the Go interface type `error` as the services of this program
return it: the nil interface, or an interface whose dynamic type is
`*entity.AppError`, holding a pointer that may itself be nil. -/
inductive ErrorInterface where
  | nil
  | appError (p : Option entity.AppError)
  deriving DecidableEq, Repr

/-- The implicit conversion of a `*entity.AppError` to `error`, as in a
`return` whose result type is `error`: the interface takes the dynamic type
`*entity.AppError` whether or not the pointer is nil. -/
def ErrorInterface.ofAppError (p : Option entity.AppError) : ErrorInterface :=
  ErrorInterface.appError p

/-- The comparison `err != nil` of an interface value: true for every
interface that has a dynamic type. -/
def ErrorInterface.notNil : ErrorInterface → Bool
  | .nil => false
  | .appError _ => true

/-! ## Package `jwt`, second part: tokens and parsing -/

namespace jwt

/-- A signing key: the bytes of `[]byte(key)`. -/
abbrev Key := String

/-- The struct `jwt.Token` for claims of type `*entity.JwtClaims`. -/
structure Token where
  Raw : String
  Method : SigningMethod
  Claims : entity.JwtClaims
  Signature : String := ""
  Valid : Bool := false
  deriving DecidableEq, Repr

/-- What `Parser.ParseUnverified` makes of a token string. -/
inductive Unverified where
  /-- Not three segments, or a header or claims segment that does not decode:
  a `ValidationError` with the flag `ValidationErrorMalformed`. -/
  | malformed (err : ValidationError)
  /-- The header names no signing method, or an unregistered one:
  a `ValidationError` with the flag `ValidationErrorUnverifiable`. -/
  | unverifiable (err : ValidationError)
  /-- The token and the segments `parts[0] + "." + parts[1]` and `parts[2]`. -/
  | parsed (token : Token) (signingString : String) (signature : String)
  deriving DecidableEq, Repr

/-- The primitives of jwt-go that this development does not look inside:
segment decoding, signature verification and signing, and the printing of a
`time.Duration`. -/
structure Lib where
  ParseUnverified : String → Unverified
  /-- The method `SigningMethod.Verify(signingString, signature, key)`; `none` is a nil error. -/
  Verify : SigningMethod → String → String → Key → Option GoError
  /-- The method `Token.SignedString(key)` of `NewWithClaims(method, claims)`. -/
  SignedString : SigningMethod → entity.JwtClaims → Key → Except GoError String
  durationString : Int → String

/-- The callback type `jwt.Keyfunc`. -/
abbrev Keyfunc := Token → Except GoError Key

/-- The function `jwt.ParseWithClaims(tokenString, &entity.JwtClaims{}, keyFunc)`
with the default parser, at clock reading `now`. A token returned next to an
error of `ParseUnverified` is rendered as `none`: it is nil or has
`Valid == false`, and callers only test `token != nil && token.Valid`. -/
def ParseWithClaims (lib : Lib) (now : Int) (tokenString : String) (keyFunc : Keyfunc) :
    Option Token × Option ValidationError :=
  match lib.ParseUnverified tokenString with
  | .malformed err =>
    (Option.none, some { err with Errors := ValidationErrorMalformed })
  | .unverifiable err =>
    (Option.none, some { err with Errors := ValidationErrorUnverifiable })
  | .parsed token signingString signature =>
    match keyFunc token with
    | .error err =>
      (some token, some { Inner := some err, Errors := ValidationErrorUnverifiable })
    | .ok key =>
      let vErr : ValidationError :=
        match token.Claims.Valid now lib.durationString with
        | some e => e
        | Option.none => {}
      let token := { token with Signature := signature }
      let vErr :=
        match lib.Verify token.Method signingString token.Signature key with
        | some err =>
          { vErr with
            Inner := some err
            Errors := vErr.Errors ||| ValidationErrorSignatureInvalid }
        | Option.none => vErr
      if vErr.valid then
        (some { token with Valid := true }, Option.none)
      else
        (some token, some vErr)

end jwt

/-! ## Package `net/http`: the parts of a request and of a response writer in use -/

namespace http

def StatusOK : Nat := 200
def StatusBadRequest : Nat := 400
def StatusForbidden : Nat := 403
def StatusNotFound : Nat := 404
def StatusInternalServerError : Nat := 500

/-- A request: its header map (canonical key to values) and its body. -/
structure Request where
  Header : String → List String := fun _ => []
  Body : String := ""

/-- The method `Header.Get`: the first value of the key, or the empty string. -/
def Request.HeaderGet (r : Request) (key : String) : String :=
  (r.Header key).headD ""

/-- A response writer: the status code sent, if any, and the body so far. -/
structure ResponseWriter where
  Code : Option Nat := none
  Body : String := ""
  deriving DecidableEq, Repr

/-- The method `WriteHeader`: only the first status code is sent. -/
def ResponseWriter.WriteHeader (w : ResponseWriter) (statusCode : Nat) : ResponseWriter :=
  match w.Code with
  | some _ => w
  | none => { w with Code := some statusCode }

/-- The method `Write`: sends `200 OK` first when no status was written. -/
def ResponseWriter.Write (w : ResponseWriter) (b : String) : ResponseWriter :=
  let w := w.WriteHeader StatusOK
  { w with Body := w.Body ++ b }

end http

/-! ## Package `access_control` -/

namespace access_control

/-- The interface `Repository` of the package: a `FindById` over a store `σ`. -/
structure Repository (σ : Type) where
  FindById : Int → σ → (Option entity.User × Option entity.AppError) × σ

/-- The callback handed to `jwt.ParseWithClaims` by `parseJwt`;
`SECRET_KEY` is the result of `os.LookupEnv("SECRET_KEY")`. -/
def keyFunc (SECRET_KEY : Option String) : jwt.Keyfunc := fun token =>
  -- check token method:
  if !token.Method.isHMAC then
    .error (entity.NewAppError "unable to determine token algorithm method").Error
  else
    -- get secret key:
    match SECRET_KEY with
    | none => .error (entity.NewAppError "unable to access secret key").Error
    | some key => .ok key

/-- The function `parseJwt`; `now` is the clock reading taken by the claims
validation. Every non-nil error of `jwt.ParseWithClaims` is a
`*jwt.ValidationError`, so the type assertion succeeds exactly when the error is
non-nil. The second test is written as Go parses it: `&` binds tighter than
`|`, and both bind tighter than `!=`. -/
def parseJwt (lib : jwt.Lib) (SECRET_KEY : Option String) (now : Int) (tokenString : String) :
    Except Panic (Option jwt.Token × Option entity.AppError) :=
  let (token, err) := jwt.ParseWithClaims lib now tokenString (keyFunc SECRET_KEY)
  let tail : Except Panic (Option jwt.Token × Option entity.AppError) :=
    if (match token with
        | some tok => tok.Valid
        | none => false) then
      .ok (token, none)
    else
      match err with
      | some e =>
        .ok (none, some ((entity.NewAppError e.Error).Wrap "jwt token could not be validated"))
      | none => .error Panic.nilDereference
  match err with
  | some ve =>
    if (ve.Errors &&& jwt.ValidationErrorMalformed) != 0 then
      .ok (none, some (entity.NewAppError "jwt token has been malformed"))
    else if ((ve.Errors &&& jwt.ValidationErrorExpired) ||| jwt.ValidationErrorNotValidYet) != 0 then
      .ok (none, some (entity.NewAppError "jwt token has expired or is not valid yet"))
    else tail
  | none => tail

def getParsedToken (lib : jwt.Lib) (SECRET_KEY : Option String) (now : Int) (r : http.Request) :
    Except Panic (Option jwt.Token × Option entity.AppError) :=
  -- get token from header:
  let tokenString := r.HeaderGet "Authorization"
  if tokenString == "" then
    .ok (none, some (entity.NewAppError "unable to find token"))
  else
    -- verify token string:
    match parseJwt lib SECRET_KEY now tokenString with
    | .error p => .error p
    | .ok (token, err) =>
      match err with
      | some err => .ok (none, some err)
      | none => .ok (token, none)

/-- The method `isUserAuthenticated`: the response writer after the call and
the returned `error` (`none` is nil). -/
def isUserAuthenticated (lib : jwt.Lib) (SECRET_KEY : Option String) (now : Int)
    (w : http.ResponseWriter) (r : http.Request) :
    Except Panic (http.ResponseWriter × Option entity.AppError) :=
  match getParsedToken lib SECRET_KEY now r with
  | .error p => .error p
  | .ok (_, err) =>
    match err with
    | some err =>
      if errors.Is err entity.ErrAppToken then
        .ok (w.WriteHeader http.StatusBadRequest, some err)
      else
        .ok (w.WriteHeader http.StatusForbidden, some err)
    | none => .ok (w, none)

/-- A call made on the repository. -/
inductive Call where
  | FindById (id : Int)
  deriving DecidableEq, Repr

/-- What a call of `getUser` leaves behind: the response writer, the returned
pair, the store, and the repository calls made, in order. -/
structure Served (σ : Type) where
  w : http.ResponseWriter
  user : Option entity.User
  err : Option entity.AppError
  store : σ
  calls : List Call

def getUser {σ : Type} (lib : jwt.Lib) (SECRET_KEY : Option String) (now : Int)
    (repo : Repository σ) (w : http.ResponseWriter) (r : http.Request) (store : σ) :
    Except Panic (Served σ) :=
  match getParsedToken lib SECRET_KEY now r with
  | .error p => .error p
  | .ok (token, err) =>
    match err with
    | some err =>
      .ok { w := w.WriteHeader http.StatusForbidden
            user := none
            err := some ((entity.NewAppError err.Error).Wrap "unable to get token")
            store := store
            calls := [] }
    | none =>
      match token with
      | none => .error Panic.nilDereference
      | some token =>
        let userId := token.Claims.UserId
        if userId == 0 then
          .ok { w := w.WriteHeader http.StatusInternalServerError
                user := none
                err := some (entity.NewAppError "unable to access jwt claims")
                store := store
                calls := [] }
        else
          match repo.FindById userId store with
          | ((user, err), store) =>
            match err with
            | some err =>
              .ok { w := w.WriteHeader http.StatusInternalServerError
                    user := none
                    err := some ((entity.NewAppError err.Error).Wrap "unable to get user")
                    store := store
                    calls := [Call.FindById userId] }
            | none =>
              .ok { w := w, user := user, err := none, store := store
                    calls := [Call.FindById userId] }

end access_control

/-! ## Package `database/sql`: what the repositories ask of a connection pool -/

namespace sql

/-- An error returned by `Row.Scan` or `DB.Exec`: the sentinel `sql.ErrNoRows`,
or any other error, with its text. -/
inductive Error where
  | ErrNoRows
  | other (text : String)
  deriving DecidableEq, Repr

/-- The text of the error: its method `Error()`. -/
def Error.text : Error → String
  | .ErrNoRows => "sql: no rows in result set"
  | .other text => text

/-- A query argument. -/
inductive Arg where
  | int (i : Int)
  | text (s : String)
  | time (t : time.Time)
  deriving DecidableEq, Repr

/-- A row of the table `users`. -/
structure Row where
  id : Int
  username : String
  password : String
  created_at : time.Time
  last_login_at : time.Time
  deriving DecidableEq, Repr

/-- The interface `sql.Result`. -/
structure Result where
  RowsAffected : Int
  deriving DecidableEq, Repr

/-- A `*sql.DB` over a database state `σ`. `QueryRow query arg` followed by
`Scan` yields the error of `Scan` (`none` is nil) and the row of `users` whose
columns named in the query are copied to the destinations; the row is only
read when the error is nil. -/
structure DB (σ : Type) where
  QueryRow : String → Arg → σ → (Option Error × Row) × σ
  Exec : String → Arg → Arg → σ → (Except Error Result) × σ

end sql

/-! ## Package `user` -/

namespace user

/-- The interface `Repository` of the package, over a store `σ`. -/
structure Repository (σ : Type) where
  FindByID : Int → σ → (Option entity.User × Option entity.AppError) × σ
  FindByUsername : String → σ → (Option entity.User × Option entity.AppError) × σ
  FindByUsernameAndReturnPassword :
    String → σ → (Option entity.User × Option entity.AppError) × σ
  UpdateWithLastLoginAt : Int → σ → (Option sql.Result × Option entity.AppError) × σ

namespace PGRepository

def FindByID {σ : Type} (pool : sql.DB σ) (userId : Int) (store : σ) :
    (Option entity.User × Option entity.AppError) × σ :=
  let query := "select id, username, created_at from users where id=$1"
  match pool.QueryRow query (.int userId) store with
  | ((err, row), store) =>
    match err with
    | some e => ((none, some (entity.NewAppError e.text)), store)
    | none =>
      if some sql.Error.ErrNoRows == err then
        ((none, some entity.ErrEntityNotFound), store)
      else
        ((some { Id := row.id, Username := row.username, CreatedAt := row.created_at }, none),
          store)

def FindByUsername {σ : Type} (pool : sql.DB σ) (username : String) (store : σ) :
    (Option entity.User × Option entity.AppError) × σ :=
  let query := "select id, username, created_at from users where username=$1"
  match pool.QueryRow query (.text username) store with
  | ((err, row), store) =>
    if err == some sql.Error.ErrNoRows then
      ((none, some entity.ErrEntityNotFound), store)
    else
      match err with
      | some e => ((none, some (entity.NewAppError e.text)), store)
      | none =>
        ((some { Id := row.id, Username := row.username, CreatedAt := row.created_at }, none),
          store)

def FindByUsernameAndReturnPassword {σ : Type} (pool : sql.DB σ) (username : String)
    (store : σ) : (Option entity.User × Option entity.AppError) × σ :=
  let query := "select id, username, password, created_at from users where username=$1"
  match pool.QueryRow query (.text username) store with
  | ((err, row), store) =>
    if err == some sql.Error.ErrNoRows then
      ((none, some entity.ErrEntityNotFound), store)
    else
      match err with
      | some e => ((none, some (entity.NewAppError e.text)), store)
      | none =>
        ((some { Id := row.id, Username := row.username, Password := row.password
                 CreatedAt := row.created_at }, none), store)

/-- The method `UpdateWithLastLoginAt`; `now` is the reading `time.Now().UTC()`. -/
def UpdateWithLastLoginAt {σ : Type} (pool : sql.DB σ) (now : time.Time) (userId : Int)
    (store : σ) : (Option sql.Result × Option entity.AppError) × σ :=
  let query := "update users set last_login_at=$1 where id=$2"
  match pool.Exec query (.time now) (.int userId) store with
  | (.error e, store) => ((none, some (entity.NewAppError e.text)), store)
  | (.ok res, store) => ((some res, none), store)

end PGRepository

/-- The struct `PGRepository` as a `Repository`: `InitRepo(pool)`, with the
clock reading its `UpdateWithLastLoginAt` takes. -/
def InitRepo {σ : Type} (pool : sql.DB σ) (now : time.Time) : Repository σ :=
  { FindByID := PGRepository.FindByID pool
    FindByUsername := PGRepository.FindByUsername pool
    FindByUsernameAndReturnPassword := PGRepository.FindByUsernameAndReturnPassword pool
    UpdateWithLastLoginAt := PGRepository.UpdateWithLastLoginAt pool now }

/-- The struct `AuthUser`; `User` is the non-nil pointer `AuthenticateUser` builds. -/
structure AuthUser where
  User : entity.User
  Token : String
  deriving DecidableEq, Repr

/-- The method `createJWTTokenString`; `now₁` and `now₂` are the two readings
of `time.Now()`, in the order the method takes them. -/
def createJWTTokenString (lib : jwt.Lib) (SECRET_KEY : Option String) (now₁ now₂ : time.Time)
    (user : entity.User) : String × Option entity.AppError :=
  -- set expiration time:
  let expirationTime := now₁.Add (2 * time.Hour)
  let claims : entity.JwtClaims :=
    { Username := user.Username
      UserId := user.Id
      StandardClaims := { ExpiresAt := expirationTime.Unix, IssuedAt := now₂.Unix } }
  -- get secret key:
  match SECRET_KEY with
  | none => ("", some entity.ErrSecretKey)
  | some key =>
    -- create token string:
    match lib.SignedString jwt.SigningMethod.HS256 claims key with
    | .error _ => ("", some entity.ErrJwtCreation)
    | .ok tokenString => (tokenString, none)

/-- A call made on the repository. -/
inductive Call where
  | FindByID (id : Int)
  | FindByUsername (username : String)
  | FindByUsernameAndReturnPassword (username : String)
  | UpdateWithLastLoginAt (id : Int)
  deriving DecidableEq, Repr

/-- What a call of `AuthenticateUser` leaves behind: the returned pair, the
store, and the repository calls made, in order. -/
structure Ran (σ : Type) where
  authUser : Option AuthUser
  err : Option entity.AppError
  store : σ
  calls : List Call

/-- The method `AuthenticateUser`; `CompareHashAndPassword` is the function of
`bcrypt` (`none` is a nil error). -/
def AuthenticateUser {σ : Type} (lib : jwt.Lib)
    (CompareHashAndPassword : String → String → Option GoError)
    (SECRET_KEY : Option String) (now₁ now₂ : time.Time) (repo : Repository σ)
    (username password : String) (store : σ) : Except Panic (Ran σ) :=
  -- get user with username
  match repo.FindByUsernameAndReturnPassword username store with
  | ((user, err), store) =>
    let calls := [Call.FindByUsernameAndReturnPassword username]
    match err with
    | some err => .ok { authUser := none, err := some err, store := store, calls := calls }
    | none =>
      match user with
      | none => .error Panic.nilDereference
      | some user =>
        -- compare user password with provided password:
        match CompareHashAndPassword user.Password password with
        | some err =>
          .ok { authUser := none, err := some (entity.NewAppError err), store := store
                calls := calls }
        | none =>
          -- create JWT token
          match createJWTTokenString lib SECRET_KEY now₁ now₂ user with
          | (jwtTokenString, err) =>
            match err with
            | some err => .ok { authUser := none, err := some err, store := store, calls := calls }
            | none =>
              match repo.UpdateWithLastLoginAt user.Id store with
              | ((_, err), store) =>
                let calls := calls ++ [Call.UpdateWithLastLoginAt user.Id]
                match err with
                | some err =>
                  .ok { authUser := none, err := some err, store := store, calls := calls }
                | none =>
                  match repo.FindByUsername username store with
                  | ((updatedUser, err), store) =>
                    let calls := calls ++ [Call.FindByUsername username]
                    match err with
                    | some err =>
                      .ok { authUser := none, err := some err, store := store, calls := calls }
                    | none =>
                      match updatedUser with
                      | none => .error Panic.nilDereference
                      | some updatedUser =>
                        let authenticatedUser : entity.User :=
                          { Id := user.Id
                            Username := user.Username
                            CreatedAt := user.CreatedAt
                            LastLoginAt := updatedUser.LastLoginAt }
                        .ok { authUser := some { User := authenticatedUser
                                                 Token := jwtTokenString }
                              err := none, store := store, calls := calls }

/-- The method `GetUserByID`: the results of the repository, the second one
converted to `error`. -/
def GetUserByID {σ : Type} (repo : Repository σ) (userId : Int) (store : σ) :
    (Option entity.User × ErrorInterface) × σ :=
  match repo.FindByID userId store with
  | ((u, err), store) => ((u, ErrorInterface.ofAppError err), store)

/-- The method `GetUserByUsername`: the results of the repository, the second
one converted to `error`. -/
def GetUserByUsername {σ : Type} (repo : Repository σ) (username : String) (store : σ) :
    (Option entity.User × ErrorInterface) × σ :=
  match repo.FindByUsername username store with
  | ((u, err), store) => ((u, ErrorInterface.ofAppError err), store)

end user

namespace access_control

/-- The method `Repo.FindById` of the package, over a connection pool. -/
def Repo.FindById {σ : Type} (pool : sql.DB σ) (id : Int) (store : σ) :
    (Option entity.User × Option entity.AppError) × σ :=
  let queryStmt := "select id, username, created_at, last_login_at from users where id=$1"
  match pool.QueryRow queryStmt (.int id) store with
  | ((err, row), store) =>
    if err == some sql.Error.ErrNoRows then
      ((none, some entity.ErrEntityNotFound), store)
    else
      match err with
      | some e => ((none, some (entity.NewAppError e.text)), store)
      | none =>
        ((some { Id := row.id, Username := row.username, CreatedAt := row.created_at
                 LastLoginAt := row.last_login_at }, none), store)

/-- The struct `Repo` as a `Repository`: `InitRepo(pool)`. -/
def InitRepo {σ : Type} (pool : sql.DB σ) : Repository σ :=
  { FindById := Repo.FindById pool }

end access_control

/-! ## Package `encoding/json`: decoding and encoding of the payloads -/

namespace json

/-- The JSON codec as the handlers use it. `DecodeUser body` is
`json.NewDecoder(body).Decode(&u)` for `var u *entity.User`: an error, or the
pointer after decoding (`none` when the body is the JSON `null`). The encoders
give the bytes `Encode` writes, or its error. -/
structure Lib where
  DecodeUser : String → Except GoError (Option entity.User)
  EncodeAuthUser : Option user.AuthUser → Except GoError String
  EncodeUser : Option entity.User → Except GoError String

end json

/-! ## Package `handlers` -/

namespace handlers

/-- What a handler leaves behind: the response, the store, and the repository
calls made, in order. -/
structure Handled (σ : Type) where
  w : http.ResponseWriter
  store : σ
  calls : List user.Call

/-- The handler of `POST /user/authenticate`. Writes to the response always
succeed, and log lines are not part of the model. -/
def authenticateHandler {σ : Type} (codec : json.Lib) (lib : jwt.Lib)
    (CompareHashAndPassword : String → String → Option GoError)
    (SECRET_KEY : Option String) (now₁ now₂ : time.Time) (repo : user.Repository σ)
    (w : http.ResponseWriter) (r : http.Request) (store : σ) : Except Panic (Handled σ) :=
  let errorMsg := "Unable to authenticate user"
  match codec.DecodeUser r.Body with
  | .error _ =>
    .ok { w := (w.WriteHeader http.StatusInternalServerError).Write errorMsg
          store := store, calls := [] }
  | .ok u =>
    match u with
    | none => .error Panic.nilDereference
    | some u =>
      if u.Username == "" || u.Password == "" then
        .ok { w := (w.WriteHeader http.StatusBadRequest).Write errorMsg
              store := store, calls := [] }
      else
        match user.AuthenticateUser lib CompareHashAndPassword SECRET_KEY now₁ now₂ repo
            u.Username u.Password store with
        | .error p => .error p
        | .ok ran =>
          match ran.err with
          | some err =>
            if err.ptrEq entity.ErrSecretKey || err.ptrEq entity.ErrJwtCreation then
              .ok { w := (w.WriteHeader http.StatusInternalServerError).Write errorMsg
                    store := ran.store, calls := ran.calls }
            else
              .ok { w := (w.WriteHeader http.StatusForbidden).Write errorMsg
                    store := ran.store, calls := ran.calls }
          | none =>
            match codec.EncodeAuthUser ran.authUser with
            | .error _ =>
              .ok { w := (w.WriteHeader http.StatusInternalServerError).Write errorMsg
                    store := ran.store, calls := ran.calls }
            | .ok body => .ok { w := w.Write body, store := ran.store, calls := ran.calls }

/-- The handler of `GET /users/{username}`; `username` is the route variable
`mux.Vars(r)["username"]`. Writes to the response always succeed. The log
lines are not part of the model: `log.Println(err)` on an interface holding a
nil `*AppError` prints `<nil>`, the panic of `Error()` being recovered by
`fmt`. -/
def userHandler {σ : Type} (codec : json.Lib) (repo : user.Repository σ)
    (w : http.ResponseWriter) (username : String) (store : σ) : Handled σ :=
  let errorMsg := "Error finding user"
  match user.GetUserByUsername repo username store with
  | ((u, err), store) =>
    let calls := [user.Call.FindByUsername username]
    match u with
    | none =>
      { w := (w.WriteHeader http.StatusNotFound).Write errorMsg, store := store, calls := calls }
    | some u =>
      if err.notNil then
        { w := (w.WriteHeader http.StatusInternalServerError).Write errorMsg
          store := store, calls := calls }
      else
        match codec.EncodeUser (some u) with
        | .error _ =>
          { w := (w.WriteHeader http.StatusInternalServerError).Write errorMsg
            store := store, calls := calls }
        | .ok body => { w := w.Write body, store := store, calls := calls }

end handlers

/-! ## Vocabulary of the statements -/

/-- The three time checks of `StandardClaims.Valid` all pass at `now`. -/
def jwt.StandardClaims.inWindow (c : jwt.StandardClaims) (now : Int) : Bool :=
  jwt.verifyExp c.ExpiresAt now false && jwt.verifyIat c.IssuedAt now false &&
    jwt.verifyNbf c.NotBefore now false

/-- The result of `parseJwt` that carries no token and the given message. -/
def access_control.refused (msg : String) :
    Except Panic (Option jwt.Token × Option entity.AppError) :=
  .ok (none, some (entity.NewAppError msg))

/-- The signing and the parsing of jwt-go agree on HS256 tokens: a string that
`SignedString` returns for some claims and key decodes to the HS256 token with
those claims, and its signature verifies under that key. -/
def jwt.Lib.RoundTrip (lib : jwt.Lib) : Prop :=
  ∀ (claims : entity.JwtClaims) (key : jwt.Key) (s : String),
    lib.SignedString jwt.SigningMethod.HS256 claims key = .ok s →
    ∃ ss sig,
      lib.ParseUnverified s =
        .parsed { Raw := s, Method := jwt.SigningMethod.HS256, Claims := claims } ss sig ∧
      lib.Verify jwt.SigningMethod.HS256 ss sig key = none

/-! ## A jwt library over a finite book of issued tokens

The theorems below hold for every `jwt.Lib`. To evaluate the definitions on
concrete inputs, `jwt.bookLib` is a library whose token strings are exactly
those listed in a book, each with the method, claims and key it was signed
with. -/

namespace jwt

/-- An issued token: `raw` is the compact serialisation of a header naming
`method` and of `claims`, signed with `key`. -/
structure Issued where
  raw : String
  method : SigningMethod
  claims : entity.JwtClaims
  key : Key
  deriving DecidableEq, Repr

def bookLib (book : List Issued) : Lib where
  ParseUnverified s :=
    match book.find? (fun e => e.raw == s) with
    | some e => .parsed { Raw := s, Method := e.method, Claims := e.claims } e.raw "signature"
    | Option.none =>
      .malformed (NewValidationError "token contains an invalid number of segments"
        ValidationErrorMalformed)
  Verify m signingString _ key :=
    match book.find? (fun e => e.raw == signingString) with
    | some e =>
      if e.method == m && e.key == key then Option.none else some "signature is invalid"
    | Option.none => some "signature is invalid"
  SignedString m claims key :=
    match book.find? (fun e => e.method == m && e.claims == claims && e.key == key) with
    | some e => .ok e.raw
    | Option.none => .error "key is invalid"
  durationString d := toString d ++ "s"

end jwt

namespace demo

def now : Int := 1700000000

/-- A token as the tests build it: HS256, key `hello`, no claim set. -/
def plain : jwt.Issued :=
  { raw := "plain.hs256.token", method := .HS256, claims := {}, key := "hello" }

/-- An HS256 token of user 1 that expired a day before `now`. -/
def expired : jwt.Issued :=
  { raw := "expired.hs256.token", method := .HS256, key := "hello"
    claims := { Username := "munens", UserId := 1, StandardClaims := { ExpiresAt := 1699913600 } } }

/-- A token signed with ES256. -/
def es256 : jwt.Issued :=
  { raw := "es256.token", method := .ES256, claims := {}, key := "ecdsa key" }

/-- The token of the login of `alice` at the epoch second 1700000000. -/
def aliceToken : jwt.Issued :=
  { raw := "alice.hs256.token", method := .HS256, key := "hello"
    claims := { Username := "alice", UserId := 7
                StandardClaims := { ExpiresAt := 1700007200, IssuedAt := 1700000000 } } }

def lib : jwt.Lib := jwt.bookLib [plain, expired, es256, aliceToken]

/-- A stand-in for `bcrypt.CompareHashAndPassword`. -/
def compare (hashedPassword password : String) : Option GoError :=
  if hashedPassword == "hash of " ++ password then none
  else some "crypto/bcrypt: hashedPassword is not the hash of the given password"

def noRow : sql.Row :=
  { id := 0, username := "", password := "", created_at := time.Time.zero
    last_login_at := time.Time.zero }

/-- A connection pool over an in-memory table `users`. -/
def pool : sql.DB (List sql.Row) where
  QueryRow _ arg rows :=
    match arg with
    | .text u =>
      match rows.find? (fun row => row.username == u) with
      | some row => ((none, row), rows)
      | none => ((some sql.Error.ErrNoRows, noRow), rows)
    | .int i =>
      match rows.find? (fun row => row.id == i) with
      | some row => ((none, row), rows)
      | none => ((some sql.Error.ErrNoRows, noRow), rows)
    | .time _ => ((some (sql.Error.other "pq: invalid input syntax"), noRow), rows)
  Exec _ a b rows :=
    match a, b with
    | .time t, .int i =>
      (.ok { RowsAffected := (rows.filter (fun row => row.id == i)).length },
        rows.map (fun row => if row.id == i then { row with last_login_at := t } else row))
    | _, _ => (.error (sql.Error.other "pq: invalid input syntax"), rows)

def alice : sql.Row :=
  { id := 7, username := "alice", password := "hash of correctpw"
    created_at := { sec := 1600000000 }, last_login_at := { sec := 1650000000 } }

def users : List sql.Row := [alice]

/-- The clock reading of the login. -/
def loginTime : time.Time := { sec := 1700000000, nsec := 250 }

/-- Two successive clock readings on either side of a second boundary. -/
def beforeTick : time.Time := { sec := 1700000000, nsec := 999999900 }

def afterTick : time.Time := { sec := 1700000001, nsec := 150 }

/-- The token of a login of `alice` whose two clock readings are `beforeTick`
and `afterTick`. -/
def tickToken : jwt.Issued :=
  { raw := "tick.hs256.token", method := .HS256, key := "hello"
    claims := { Username := "alice", UserId := 7
                StandardClaims := { ExpiresAt := 1700007200, IssuedAt := 1700000001 } } }

def tickLib : jwt.Lib := jwt.bookLib [tickToken]

/-- A jwt library whose `SignedString` spells out, in the token string, the
user name of the claims and the number of seconds from `IssuedAt` to
`ExpiresAt`; it signs any claims with any key. -/
def spanLib : jwt.Lib where
  ParseUnverified _ :=
    .malformed (jwt.NewValidationError "token contains an invalid number of segments"
      jwt.ValidationErrorMalformed)
  Verify _ _ _ _ := some "signature is invalid"
  SignedString _ claims _ :=
    .ok (claims.Username ++ " expires " ++
      toString (claims.StandardClaims.ExpiresAt - claims.StandardClaims.IssuedAt) ++
      " s after issuance")
  durationString d := toString d ++ "s"

/-- A JSON codec on three request bodies. -/
def codec : json.Lib where
  DecodeUser body :=
    if body == "alice/correctpw" then .ok (some { Username := "alice", Password := "correctpw" })
    else if body == "alice/wrongpw" then .ok (some { Username := "alice", Password := "wrongpw" })
    else if body == "bob/secret" then .ok (some { Username := "bob", Password := "secret" })
    else .error "unexpected end of JSON input"
  EncodeAuthUser _ := .ok "authUser"
  EncodeUser _ := .ok "user"

/-- A request whose `Authorization` header holds `tokenString`. -/
def request (tokenString : String) : http.Request :=
  { Header := fun k => if k == "Authorization" then [tokenString] else [] }

/-- A repository over a store without content, every lookup finds nothing. -/
def emptyRepo : access_control.Repository Unit :=
  { FindById := fun _ s => ((none, some entity.ErrEntityNotFound), s) }

end demo

/-! ## Properties of the token gate -/

theorem jwt.flags_or_ne_zero (n : Nat) :
    ((n &&& jwt.ValidationErrorExpired) ||| jwt.ValidationErrorNotValidYet) ≠ 0 := by
  intro h
  have := congrArg (fun m => m.testBit 7) h
  simp only [jwt.ValidationErrorNotValidYet, Nat.testBit_or, Nat.zero_testBit,
    Bool.or_eq_false_iff] at this
  exact absurd this.2 (by decide)

theorem jwt.flags_or_signature_ne_zero (n : Nat) :
    (n ||| jwt.ValidationErrorSignatureInvalid) ≠ 0 := by
  intro h
  have := congrArg (fun m => m.testBit 2) h
  simp only [jwt.ValidationErrorSignatureInvalid, Nat.testBit_or, Nat.zero_testBit,
    Bool.or_eq_false_iff] at this
  exact absurd this.2 (by decide)

theorem jwt.StandardClaims.Valid_eq_none (c : jwt.StandardClaims) (now : Int) (d : Int → String) :
    c.Valid now d = none ↔ c.inWindow now = true := by
  unfold jwt.StandardClaims.Valid jwt.StandardClaims.inWindow jwt.StandardClaims.VerifyExpiresAt
    jwt.StandardClaims.VerifyIssuedAt jwt.StandardClaims.VerifyNotBefore jwt.ValidationError.valid
  cases jwt.verifyExp c.ExpiresAt now false <;> cases jwt.verifyIat c.IssuedAt now false <;>
    cases jwt.verifyNbf c.NotBefore now false <;>
    simp [jwt.ValidationErrorExpired, jwt.ValidationErrorIssuedAt, jwt.ValidationErrorNotValidYet]

theorem jwt.StandardClaims.Valid_flags (c : jwt.StandardClaims) (now : Int) (d : Int → String)
    (e : jwt.ValidationError) (h : c.Valid now d = some e) :
    e.Errors ≠ 0 ∧ e.Errors &&& jwt.ValidationErrorMalformed = 0 ∧
      (e.Errors ||| jwt.ValidationErrorSignatureInvalid) &&& jwt.ValidationErrorMalformed = 0 := by
  unfold jwt.StandardClaims.Valid jwt.StandardClaims.VerifyExpiresAt
    jwt.StandardClaims.VerifyIssuedAt jwt.StandardClaims.VerifyNotBefore jwt.ValidationError.valid at h
  revert h
  cases jwt.verifyExp c.ExpiresAt now false <;> cases jwt.verifyIat c.IssuedAt now false <;>
    cases jwt.verifyNbf c.NotBefore now false <;>
    simp [jwt.ValidationErrorExpired, jwt.ValidationErrorIssuedAt, jwt.ValidationErrorNotValidYet,
      jwt.ValidationErrorMalformed, jwt.ValidationErrorSignatureInvalid] <;>
    (intro h; subst h; dsimp only; decide)

namespace access_control

theorem parseJwt_malformed (lib : jwt.Lib) (K : Option String) (now : Int) (s : String)
    (e : jwt.ValidationError) (h : lib.ParseUnverified s = .malformed e) :
    parseJwt lib K now s = refused "jwt token has been malformed" := by
  simp [parseJwt, jwt.ParseWithClaims, h, refused, jwt.ValidationErrorMalformed]

theorem parseJwt_unverifiable (lib : jwt.Lib) (K : Option String) (now : Int) (s : String)
    (e : jwt.ValidationError) (h : lib.ParseUnverified s = .unverifiable e) :
    parseJwt lib K now s = refused "jwt token has expired or is not valid yet" := by
  have hflag := jwt.flags_or_ne_zero
  simp [parseJwt, jwt.ParseWithClaims, h, refused, hflag, jwt.ValidationErrorMalformed,
    jwt.ValidationErrorUnverifiable]

/-- The function `parseJwt` on a token string that `ParseUnverified` decodes. -/
theorem parseJwt_parsed (lib : jwt.Lib) (K : Option String) (now : Int) (s : String)
    (tok : jwt.Token) (ss sig : String) (h : lib.ParseUnverified s = .parsed tok ss sig) :
    parseJwt lib K now s =
      if tok.Method.isHMAC then
        match K with
        | none => refused "jwt token has expired or is not valid yet"
        | some key =>
          if tok.Claims.StandardClaims.inWindow now ∧ lib.Verify tok.Method ss sig key = none then
            .ok (some { tok with Signature := sig, Valid := true }, none)
          else refused "jwt token has expired or is not valid yet"
      else refused "jwt token has expired or is not valid yet" := by
  have hflag := jwt.flags_or_ne_zero
  have hsig := jwt.flags_or_signature_ne_zero
  cases hm : tok.Method.isHMAC
  · simp [parseJwt, jwt.ParseWithClaims, h, keyFunc, hm, refused, hflag,
      jwt.ValidationErrorMalformed, jwt.ValidationErrorUnverifiable]
  · cases K with
    | none =>
      simp [parseJwt, jwt.ParseWithClaims, h, keyFunc, hm, refused, hflag,
        jwt.ValidationErrorMalformed, jwt.ValidationErrorUnverifiable]
    | some key =>
      cases hv : tok.Claims.StandardClaims.Valid now lib.durationString with
      | none =>
        have hw := (jwt.StandardClaims.Valid_eq_none _ _ _).1 hv
        cases hs : lib.Verify tok.Method ss sig key with
        | none =>
          simp [parseJwt, jwt.ParseWithClaims, h, keyFunc, hm, refused, hflag,
            entity.JwtClaims.Valid, hv, hs, hw, jwt.ValidationError.valid]
        | some err =>
          simp [parseJwt, jwt.ParseWithClaims, h, keyFunc, hm, refused, hflag,
            entity.JwtClaims.Valid, hv, hs, hw, jwt.ValidationError.valid,
            jwt.ValidationErrorMalformed, jwt.ValidationErrorSignatureInvalid]
      | some e =>
        have hw : tok.Claims.StandardClaims.inWindow now = false := by
          cases hw : tok.Claims.StandardClaims.inWindow now
          · rfl
          · rw [(jwt.StandardClaims.Valid_eq_none _ _ lib.durationString).2 hw] at hv
            cases hv
        obtain ⟨h0, h1, h2⟩ := jwt.StandardClaims.Valid_flags _ _ _ _ hv
        cases hs : lib.Verify tok.Method ss sig key with
        | none =>
          simp [parseJwt, jwt.ParseWithClaims, h, keyFunc, hm, refused, hflag,
            entity.JwtClaims.Valid, hv, hs, hw, jwt.ValidationError.valid, h0, h1]
        | some err =>
          simp [parseJwt, jwt.ParseWithClaims, h, keyFunc, hm, refused, hflag,
            entity.JwtClaims.Valid, hv, hs, hw, jwt.ValidationError.valid, h0, h1, h2, hsig]

end access_control

namespace access_control

theorem getParsedToken_eq (lib : jwt.Lib) (K : Option String) (now : Int) (r : http.Request)
    (msg : String) (h : parseJwt lib K now (r.HeaderGet "Authorization") = refused msg) :
    ∃ m, getParsedToken lib K now r = refused m := by
  unfold getParsedToken
  by_cases hs : r.HeaderGet "Authorization" = ""
  · exact ⟨"unable to find token", by simp [hs, refused]⟩
  · exact ⟨msg, by simp [hs, h, refused]⟩

theorem not_Is_ErrAppToken_of_refused (msg : String)
    (h : msg ≠ "unable to authenticate token") :
    errors.Is (entity.NewAppError msg) entity.ErrAppToken = false := by
  simp [errors.Is, entity.AppError.ptrEq, entity.AppError.Is, entity.NewAppError,
    entity.AppError.Error, entity.ErrAppToken, h]

/-- Every outcome of `parseJwt`: one of the two refusals, or the decoded token
marked valid, under the conditions jwt-go accepts a token. -/
theorem parseJwt_cases (lib : jwt.Lib) (K : Option String) (now : Int) (s : String) :
    parseJwt lib K now s = refused "jwt token has been malformed" ∨
    parseJwt lib K now s = refused "jwt token has expired or is not valid yet" ∨
    ∃ tok ss sig key,
      lib.ParseUnverified s = .parsed tok ss sig ∧ tok.Method.isHMAC = true ∧ K = some key ∧
      tok.Claims.StandardClaims.inWindow now = true ∧ lib.Verify tok.Method ss sig key = none ∧
      parseJwt lib K now s = .ok (some { tok with Signature := sig, Valid := true }, none) := by
  cases h : lib.ParseUnverified s with
  | malformed e => exact Or.inl (parseJwt_malformed lib K now s e h)
  | unverifiable e => exact Or.inr (Or.inl (parseJwt_unverifiable lib K now s e h))
  | parsed tok ss sig =>
    rw [parseJwt_parsed lib K now s tok ss sig h]
    cases hm : tok.Method.isHMAC
    · simp
    · cases K with
      | none => simp
      | some key =>
        by_cases hc : tok.Claims.StandardClaims.inWindow now = true ∧
            lib.Verify tok.Method ss sig key = none
        · refine Or.inr (Or.inr ⟨tok, ss, sig, key, rfl, hm, rfl, hc.1, hc.2, ?_⟩)
          simp [hc]
        · refine Or.inr (Or.inl ?_)
          simp only [if_true]
          rw [if_neg hc]

theorem getParsedToken_cases (lib : jwt.Lib) (K : Option String) (now : Int) (r : http.Request) :
    getParsedToken lib K now r = refused "unable to find token" ∨
    getParsedToken lib K now r = refused "jwt token has been malformed" ∨
    getParsedToken lib K now r = refused "jwt token has expired or is not valid yet" ∨
    ∃ tok ss sig key,
      r.HeaderGet "Authorization" ≠ "" ∧
      lib.ParseUnverified (r.HeaderGet "Authorization") = .parsed tok ss sig ∧
      tok.Method.isHMAC = true ∧ K = some key ∧
      tok.Claims.StandardClaims.inWindow now = true ∧ lib.Verify tok.Method ss sig key = none ∧
      getParsedToken lib K now r = .ok (some { tok with Signature := sig, Valid := true }, none) := by
  by_cases hs : r.HeaderGet "Authorization" = ""
  · exact Or.inl (by simp [getParsedToken, hs, refused])
  · rcases parseJwt_cases lib K now (r.HeaderGet "Authorization") with h | h | h
    · exact Or.inr (Or.inl (by simp [getParsedToken, hs, h, refused]))
    · exact Or.inr (Or.inr (Or.inl (by simp [getParsedToken, hs, h, refused])))
    · obtain ⟨tok, ss, sig, key, h1, h2, h3, h4, h5, h6⟩ := h
      exact Or.inr (Or.inr (Or.inr ⟨tok, ss, sig, key, hs, h1, h2, h3, h4, h5,
        by simp [getParsedToken, hs, h6]⟩))

/-- The branch of `isUserAuthenticated` that writes `400 Bad Request` is never
taken: no error of `getParsedToken` has the message of `ErrAppToken`. -/
theorem isUserAuthenticated_eq (lib : jwt.Lib) (K : Option String) (now : Int)
    (w : http.ResponseWriter) (r : http.Request) :
    isUserAuthenticated lib K now w r =
      match getParsedToken lib K now r with
      | .error p => .error p
      | .ok (_, some err) => .ok (w.WriteHeader http.StatusForbidden, some err)
      | .ok (_, none) => .ok (w, none) := by
  unfold isUserAuthenticated
  rcases getParsedToken_cases lib K now r with h | h | h | ⟨tok, ss, sig, key, -, -, -, -, -, -, h⟩
  · rw [h]; simp [refused, not_Is_ErrAppToken_of_refused]
  · rw [h]; simp [refused, not_Is_ErrAppToken_of_refused]
  · rw [h]; simp [refused, not_Is_ErrAppToken_of_refused]
  · rw [h]

end access_control

/-! ## Claims about the token gate -/

/-- C2 (counterexample): the HS256 token `demo.plain` decodes, its `ExpiresAt`
is 0, earlier than the clock reading, its signature verifies under the
configured key, and `parseJwt` returns it as a valid token with no error. -/
theorem C2_zero_expiry_is_accepted :
    demo.lib.ParseUnverified "plain.hs256.token" =
        .parsed { Raw := "plain.hs256.token", Method := .HS256, Claims := {} }
          "plain.hs256.token" "signature" ∧
      (({} : entity.JwtClaims).StandardClaims.ExpiresAt < demo.now) ∧
      access_control.parseJwt demo.lib (some "hello") demo.now "plain.hs256.token" =
        .ok (some { Raw := "plain.hs256.token", Method := .HS256, Claims := {},
                    Signature := "signature", Valid := true }, none) :=
  ⟨rfl, by decide, rfl⟩

/-- C2 (amended): for every token string that decodes and whose `ExpiresAt` is
non-zero and earlier than the clock reading, whatever the signing method, the
secret and the signature check, `parseJwt` returns no token and the error
"jwt token has expired or is not valid yet"; `isUserAuthenticated` returns an
error and writes 403, and `getUser` returns no user and an error, writes 403
and calls nothing on the repository. -/
theorem C2_expired_token_is_rejected {σ : Type} (lib : jwt.Lib) (K : Option String) (now : Int)
    (tok : jwt.Token) (ss sig : String) (repo : access_control.Repository σ)
    (w : http.ResponseWriter) (r : http.Request) (store : σ)
    (hparse : lib.ParseUnverified (r.HeaderGet "Authorization") = .parsed tok ss sig)
    (hset : tok.Claims.StandardClaims.ExpiresAt ≠ 0)
    (hexp : tok.Claims.StandardClaims.ExpiresAt < now) :
    access_control.parseJwt lib K now (r.HeaderGet "Authorization") =
        .ok (none, some (entity.NewAppError "jwt token has expired or is not valid yet")) ∧
      (∃ err, access_control.isUserAuthenticated lib K now w r =
        .ok (w.WriteHeader http.StatusForbidden, some err)) ∧
      (∃ err, access_control.getUser lib K now repo w r store =
        .ok { w := w.WriteHeader http.StatusForbidden, user := none, err := some err,
              store := store, calls := [] }) := by
  have hw : tok.Claims.StandardClaims.inWindow now = false := by
    simp [jwt.StandardClaims.inWindow, jwt.verifyExp, hset, hexp]
  have hp : access_control.parseJwt lib K now (r.HeaderGet "Authorization") =
      access_control.refused "jwt token has expired or is not valid yet" := by
    rw [access_control.parseJwt_parsed lib K now _ tok ss sig hparse]
    cases tok.Method.isHMAC <;> cases K <;> simp [hw]
  obtain ⟨m, hg⟩ := access_control.getParsedToken_eq lib K now r _ hp
  refine ⟨hp, ⟨entity.NewAppError m, ?_⟩, ⟨(entity.NewAppError m).Wrap "unable to get token", ?_⟩⟩
  · rw [access_control.isUserAuthenticated_eq, hg]; rfl
  · simp [access_control.getUser, hg, access_control.refused, entity.NewAppError,
      entity.AppError.Error]

/-- C2 (witness): the amended statement at the token `demo.expired`, with the
configured key `hello` and a repository that finds nothing. -/
theorem C2_expired_token_is_rejected_witness :
    access_control.parseJwt demo.lib (some "hello") demo.now
        ((demo.request "expired.hs256.token").HeaderGet "Authorization") =
        .ok (none, some (entity.NewAppError "jwt token has expired or is not valid yet")) ∧
      (∃ err, access_control.isUserAuthenticated demo.lib (some "hello") demo.now {}
          (demo.request "expired.hs256.token") =
        .ok (({} : http.ResponseWriter).WriteHeader http.StatusForbidden, some err)) ∧
      (∃ err, access_control.getUser demo.lib (some "hello") demo.now demo.emptyRepo {}
          (demo.request "expired.hs256.token") () =
        .ok { w := ({} : http.ResponseWriter).WriteHeader http.StatusForbidden, user := none,
              err := some err, store := (), calls := [] }) :=
  C2_expired_token_is_rejected demo.lib (some "hello") demo.now
    { Raw := "expired.hs256.token", Method := .HS256, Claims := demo.expired.claims }
    "expired.hs256.token" "signature" demo.emptyRepo {} (demo.request "expired.hs256.token") ()
    rfl (by decide) (by decide)

/-- C3 (counterexample): the token `demo.es256` decodes and is signed with
ES256, not an HMAC method; `parseJwt` fails with the error
"jwt token has expired or is not valid yet", which is not the malformed error. -/
theorem C3_es256_is_not_reported_malformed :
    demo.lib.ParseUnverified "es256.token" =
        .parsed { Raw := "es256.token", Method := .ES256, Claims := {} }
          "es256.token" "signature" ∧
      jwt.SigningMethod.ES256.isHMAC = false ∧
      access_control.parseJwt demo.lib (some "hello") demo.now "es256.token" =
        .ok (none, some (entity.NewAppError "jwt token has expired or is not valid yet")) ∧
      access_control.parseJwt demo.lib (some "hello") demo.now "es256.token" ≠
        .ok (none, some (entity.NewAppError "jwt token has been malformed")) := by
  refine ⟨rfl, rfl, rfl, ?_⟩
  rw [show access_control.parseJwt demo.lib (some "hello") demo.now "es256.token" =
    .ok (none, some (entity.NewAppError "jwt token has expired or is not valid yet")) from rfl]
  simp [entity.NewAppError]

/-- C3 (amended): for every token string that decodes and names a signing
method that is not an HMAC method, jwt-go reports the refusal of the key
function, "unable to determine token algorithm method", with the flag
`ValidationErrorUnverifiable` and without the malformed flag, and `parseJwt`
returns no token and an error that is not the malformed error. -/
theorem C3_non_hmac_token_is_rejected (lib : jwt.Lib) (K : Option String) (now : Int)
    (s : String) (tok : jwt.Token) (ss sig : String)
    (hparse : lib.ParseUnverified s = .parsed tok ss sig)
    (hmethod : tok.Method.isHMAC = false) :
    jwt.ParseWithClaims lib now s (access_control.keyFunc K) =
        (some tok, some { Inner := some "unable to determine token algorithm method"
                          Errors := jwt.ValidationErrorUnverifiable }) ∧
      jwt.ValidationErrorUnverifiable &&& jwt.ValidationErrorMalformed = 0 ∧
      ∃ err : entity.AppError,
        access_control.parseJwt lib K now s = .ok (none, some err) ∧
        err.Error ≠ "jwt token has been malformed" := by
  refine ⟨?_, by decide, entity.NewAppError "jwt token has expired or is not valid yet", ?_,
    by decide⟩
  · simp [jwt.ParseWithClaims, hparse, access_control.keyFunc, hmethod, entity.NewAppError,
      entity.AppError.Error]
  · rw [access_control.parseJwt_parsed lib K now s tok ss sig hparse]
    simp [hmethod, access_control.refused]

/-- C3 (witness): the amended statement at the ES256 token `demo.es256`. -/
theorem C3_non_hmac_token_is_rejected_witness :
    jwt.ParseWithClaims demo.lib demo.now "es256.token" (access_control.keyFunc (some "hello")) =
        (some { Raw := "es256.token", Method := .ES256, Claims := {} },
          some { Inner := some "unable to determine token algorithm method"
                 Errors := jwt.ValidationErrorUnverifiable }) ∧
      jwt.ValidationErrorUnverifiable &&& jwt.ValidationErrorMalformed = 0 ∧
      ∃ err : entity.AppError,
        access_control.parseJwt demo.lib (some "hello") demo.now "es256.token" =
          .ok (none, some err) ∧
        err.Error ≠ "jwt token has been malformed" :=
  C3_non_hmac_token_is_rejected demo.lib (some "hello") demo.now "es256.token"
    { Raw := "es256.token", Method := .ES256, Claims := {} } "es256.token" "signature" rfl rfl

/-- C4 (the code at the failing input): for a request without an
`Authorization` header, whatever the library, the secret and the clock,
`isUserAuthenticated` returns the error "unable to find token" and writes
403 Forbidden, not 400; and on every request the method writes 403 whenever
`getParsedToken` fails, so the branch writing 400 is never taken. -/
theorem C4_missing_header_is_answered_403 (lib : jwt.Lib) (K : Option String) (now : Int)
    (w : http.ResponseWriter) (r : http.Request) :
    access_control.isUserAuthenticated lib K now {} {} =
        .ok ({ Code := some 403, Body := "" }, some (entity.NewAppError "unable to find token")) ∧
      access_control.isUserAuthenticated lib K now w r =
        (match access_control.getParsedToken lib K now r with
         | .error p => .error p
         | .ok (_, some err) => .ok (w.WriteHeader http.StatusForbidden, some err)
         | .ok (_, none) => .ok (w, none)) :=
  ⟨rfl, access_control.isUserAuthenticated_eq lib K now w r⟩

/-- C5 (the code at the failing input): with `SECRET_KEY` unset, the decodable
HS256 token `demo.plain` reaches the key function, which builds the error
"unable to access secret key"; jwt-go flags it `ValidationErrorUnverifiable`.
`parseJwt` nevertheless returns the very error it returns for the expired
token `demo.expired`, and `isUserAuthenticated` and `getUser` answer 403
Forbidden, not 500, while the login handler answers 500 when the secret is
missing. -/
theorem C5_unset_secret_is_reported_as_expired :
    jwt.ParseWithClaims demo.lib demo.now "plain.hs256.token" (access_control.keyFunc none) =
        (some { Raw := "plain.hs256.token", Method := .HS256, Claims := {} },
          some { Inner := some "unable to access secret key"
                 Errors := jwt.ValidationErrorUnverifiable }) ∧
      access_control.parseJwt demo.lib none demo.now "plain.hs256.token" =
        .ok (none, some (entity.NewAppError "jwt token has expired or is not valid yet")) ∧
      access_control.parseJwt demo.lib none demo.now "plain.hs256.token" =
        access_control.parseJwt demo.lib (some "hello") demo.now "expired.hs256.token" ∧
      access_control.isUserAuthenticated demo.lib none demo.now {}
          (demo.request "plain.hs256.token") =
        .ok ({ Code := some 403, Body := "" },
          some (entity.NewAppError "jwt token has expired or is not valid yet")) ∧
      (access_control.getUser demo.lib none demo.now demo.emptyRepo {}
          (demo.request "plain.hs256.token") ()).map (fun served => served.w.Code) =
        .ok (some 403) ∧
      (handlers.authenticateHandler demo.codec demo.lib demo.compare none demo.loginTime
          demo.loginTime (user.InitRepo demo.pool demo.loginTime) {}
          { Body := "alice/correctpw" } demo.users).map (fun handled => handled.w) =
        .ok { Code := some 500, Body := "Unable to authenticate user" } :=
  ⟨rfl, rfl, rfl, rfl, rfl, rfl⟩

theorem jwt.StandardClaims.inWindow_iff (c : jwt.StandardClaims) (now : Int) :
    c.inWindow now = true ↔
      (c.ExpiresAt = 0 ∨ now ≤ c.ExpiresAt) ∧ (c.IssuedAt = 0 ∨ c.IssuedAt ≤ now) ∧
        (c.NotBefore = 0 ∨ c.NotBefore ≤ now) := by
  unfold jwt.StandardClaims.inWindow jwt.verifyExp jwt.verifyIat jwt.verifyNbf
  by_cases h1 : c.ExpiresAt = 0 <;> by_cases h2 : c.IssuedAt = 0 <;>
    by_cases h3 : c.NotBefore = 0 <;> simp [h1, h2, h3, and_assoc]

/-- C6 (counterexample): `isUserAuthenticated` admits the request carrying the
token `demo.plain` (nil error, nothing written), although the claims of the
token carry `UserId` 0 and the clock reading is not before its `ExpiresAt`. -/
theorem C6_admits_token_without_user_id :
    access_control.isUserAuthenticated demo.lib (some "hello") demo.now {}
        (demo.request "plain.hs256.token") = .ok ({ Code := none, Body := "" }, none) ∧
      demo.lib.ParseUnverified "plain.hs256.token" =
        .parsed { Raw := "plain.hs256.token", Method := .HS256, Claims := {} }
          "plain.hs256.token" "signature" ∧
      ({} : entity.JwtClaims).UserId = 0 ∧
      ¬ (demo.now < ({} : entity.JwtClaims).StandardClaims.ExpiresAt) :=
  ⟨rfl, rfl, rfl, by decide⟩

/-- C6 (amended): whenever `isUserAuthenticated` admits a request (nil error),
it has written nothing, `SECRET_KEY` is set, the `Authorization` header is not
empty and decodes to a token with an HMAC method whose signature verifies under
`SECRET_KEY`, and each of `ExpiresAt`, `IssuedAt`, `NotBefore` is either zero or
respected by the clock reading (`now ≤ ExpiresAt`, `IssuedAt ≤ now`,
`NotBefore ≤ now`). Nothing is required of `UserId`. -/
theorem C6_admitted_token_is_verified (lib : jwt.Lib) (K : Option String) (now : Int)
    (w w' : http.ResponseWriter) (r : http.Request)
    (hpass : access_control.isUserAuthenticated lib K now w r = .ok (w', none)) :
    w' = w ∧
      ∃ key tok ss sig,
        K = some key ∧ r.HeaderGet "Authorization" ≠ "" ∧
        lib.ParseUnverified (r.HeaderGet "Authorization") = .parsed tok ss sig ∧
        tok.Method.isHMAC = true ∧ lib.Verify tok.Method ss sig key = none ∧
        (tok.Claims.StandardClaims.ExpiresAt = 0 ∨ now ≤ tok.Claims.StandardClaims.ExpiresAt) ∧
        (tok.Claims.StandardClaims.IssuedAt = 0 ∨ tok.Claims.StandardClaims.IssuedAt ≤ now) ∧
        (tok.Claims.StandardClaims.NotBefore = 0 ∨ tok.Claims.StandardClaims.NotBefore ≤ now) := by
  rw [access_control.isUserAuthenticated_eq] at hpass
  rcases access_control.getParsedToken_cases lib K now r with
    h | h | h | ⟨tok, ss, sig, key, h1, h2, h3, h4, h5, h6, h⟩
  · rw [h] at hpass; simp [access_control.refused] at hpass
  · rw [h] at hpass; simp [access_control.refused] at hpass
  · rw [h] at hpass; simp [access_control.refused] at hpass
  · rw [h] at hpass
    simp only [Except.ok.injEq, Prod.mk.injEq, and_true] at hpass
    obtain ⟨e1, e2, e3⟩ := (jwt.StandardClaims.inWindow_iff _ _).1 h5
    exact ⟨hpass.symm, key, tok, ss, sig, h4, h1, h2, h3, h6, e1, e2, e3⟩

/-- C6 (witness): the amended statement at the admitted request carrying the
token `demo.plain`. -/
theorem C6_admitted_token_is_verified_witness :
    access_control.isUserAuthenticated demo.lib (some "hello") demo.now {}
        (demo.request "plain.hs256.token") = .ok ({}, none) ∧
      (({} : http.ResponseWriter) = {} ∧
      ∃ key tok ss sig,
        some "hello" = some key ∧
        (demo.request "plain.hs256.token").HeaderGet "Authorization" ≠ "" ∧
        demo.lib.ParseUnverified ((demo.request "plain.hs256.token").HeaderGet "Authorization") =
          .parsed tok ss sig ∧
        tok.Method.isHMAC = true ∧ demo.lib.Verify tok.Method ss sig key = none ∧
        (tok.Claims.StandardClaims.ExpiresAt = 0 ∨
          demo.now ≤ tok.Claims.StandardClaims.ExpiresAt) ∧
        (tok.Claims.StandardClaims.IssuedAt = 0 ∨
          tok.Claims.StandardClaims.IssuedAt ≤ demo.now) ∧
        (tok.Claims.StandardClaims.NotBefore = 0 ∨
          tok.Claims.StandardClaims.NotBefore ≤ demo.now)) :=
  ⟨rfl, C6_admitted_token_is_verified demo.lib (some "hello") demo.now {} {}
    (demo.request "plain.hs256.token") rfl⟩

/-- C7: for every request whose token validates (`getParsedToken` returns a
token and no error) but whose claims carry `UserId` 0, `getUser` returns no
user and an error with the message "unable to access jwt claims", writes 500
Internal Server Error, and makes no call on the repository, so `FindById` is
never called and the store is untouched. -/
theorem C7_zero_user_id_is_internal_error {σ : Type} (lib : jwt.Lib) (K : Option String)
    (now : Int) (repo : access_control.Repository σ) (w : http.ResponseWriter)
    (r : http.Request) (store : σ) (tok : jwt.Token)
    (hvalid : access_control.getParsedToken lib K now r = .ok (some tok, none))
    (hzero : tok.Claims.UserId = 0) :
    access_control.getUser lib K now repo w r store =
        .ok { w := w.WriteHeader http.StatusInternalServerError, user := none,
              err := some (entity.NewAppError "unable to access jwt claims"),
              store := store, calls := [] } ∧
      (entity.NewAppError "unable to access jwt claims").Error = "unable to access jwt claims" := by
  refine ⟨?_, rfl⟩
  simp [access_control.getUser, hvalid, hzero]

/-- C7 (witness): the statement at the request carrying the valid token
`demo.plain`, whose claims have `UserId` 0. -/
theorem C7_zero_user_id_is_internal_error_witness :
    access_control.getParsedToken demo.lib (some "hello") demo.now
        (demo.request "plain.hs256.token") =
        .ok (some { Raw := "plain.hs256.token", Method := .HS256, Claims := {},
                    Signature := "signature", Valid := true }, none) ∧
      access_control.getUser demo.lib (some "hello") demo.now demo.emptyRepo {}
          (demo.request "plain.hs256.token") () =
        .ok { w := { Code := some 500, Body := "" }, user := none,
              err := some (entity.NewAppError "unable to access jwt claims"),
              store := (), calls := [] } :=
  ⟨rfl, (C7_zero_user_id_is_internal_error demo.lib (some "hello") demo.now demo.emptyRepo {}
    (demo.request "plain.hs256.token") ()
    { Raw := "plain.hs256.token", Method := .HS256, Claims := {},
      Signature := "signature", Valid := true } rfl rfl).1⟩

/-! ## Properties of the credential authenticator -/

/-- The claims `createJWTTokenString` mints for a user at the readings `now₁`, `now₂`. -/
theorem user.createJWTTokenString_ok (lib : jwt.Lib) (K : Option String) (now₁ now₂ : time.Time)
    (u : entity.User) (tokenString : String)
    (h : user.createJWTTokenString lib K now₁ now₂ u = (tokenString, none)) :
    ∃ key, K = some key ∧
      lib.SignedString jwt.SigningMethod.HS256
        { Username := u.Username, UserId := u.Id
          StandardClaims := { ExpiresAt := now₁.sec + 7200, IssuedAt := now₂.sec } } key =
        .ok tokenString := by
  unfold user.createJWTTokenString at h
  cases K with
  | none => simp at h
  | some key =>
    refine ⟨key, rfl, ?_⟩
    simp only [time.Time.Add, time.Time.Unix, time.Hour] at h
    cases hs : lib.SignedString jwt.SigningMethod.HS256
        { Username := u.Username, UserId := u.Id
          StandardClaims := { ExpiresAt := now₁.sec + 2 * 3600, IssuedAt := now₂.sec } } key with
    | error e => rw [hs] at h; simp at h
    | ok t =>
      rw [hs] at h
      simp only [Prod.mk.injEq, and_true] at h
      subst h
      simpa using hs

/-- A successful `AuthenticateUser`, taken apart. -/
theorem user.AuthenticateUser_success {σ : Type} (lib : jwt.Lib)
    (cmp : String → String → Option GoError) (K : Option String) (now₁ now₂ : time.Time)
    (repo : user.Repository σ) (username password : String) (store : σ) (ran : user.Ran σ)
    (h : user.AuthenticateUser lib cmp K now₁ now₂ repo username password store = .ok ran)
    (hnil : ran.err = none) :
    ∃ (u updated : entity.User) (tokenString : String),
      (repo.FindByUsernameAndReturnPassword username store).1 = (some u, none) ∧
      cmp u.Password password = none ∧
      user.createJWTTokenString lib K now₁ now₂ u = (tokenString, none) ∧
      ran.authUser = some
        { User := { Id := u.Id, Username := u.Username, CreatedAt := u.CreatedAt
                    LastLoginAt := updated.LastLoginAt }
          Token := tokenString } := by
  unfold user.AuthenticateUser at h
  dsimp only at h
  repeat' (split at h)
  all_goals (try (simp only [Except.ok.injEq, reduceCtorEq] at h))
  all_goals (try (subst h; simp at hnil))
  rename_i e1 h1e uo u h1u x hc e2 hj e3 h2 e4 h3 upo up hup
  exact ⟨u, up, (user.createJWTTokenString lib K now₁ now₂ u).1, Prod.ext h1u h1e, hc,
    Prod.ext rfl hj, rfl⟩

/-! ## The book library signs and parses consistently -/

theorem jwt.find_raw_of_mem (book : List jwt.Issued)
    (hd : book.Pairwise (fun a b => a.raw ≠ b.raw)) (e : jwt.Issued) (he : e ∈ book) :
    book.find? (fun x => x.raw == e.raw) = some e := by
  induction book with
  | nil => cases he
  | cons a l ih =>
    rw [List.pairwise_cons] at hd
    rcases List.mem_cons.1 he with h | h
    · subst h
      simp [List.find?]
    · have hne : (a.raw == e.raw) = false := by simpa using hd.1 e h
      simp [List.find?, hne, ih hd.2 h]

theorem jwt.bookLib_RoundTrip (book : List jwt.Issued)
    (hd : book.Pairwise (fun a b => a.raw ≠ b.raw)) : (jwt.bookLib book).RoundTrip := by
  intro claims key s hs
  simp only [jwt.bookLib] at hs ⊢
  cases hf : book.find? (fun e => e.method == jwt.SigningMethod.HS256 && e.claims == claims &&
      e.key == key) with
  | none => rw [hf] at hs; cases hs
  | some e =>
    rw [hf] at hs
    have hs' : e.raw = s := by injection hs
    have hmem : e ∈ book := List.mem_of_find?_eq_some hf
    have hp := List.find?_some hf
    simp only [Bool.and_eq_true, beq_iff_eq] at hp
    obtain ⟨⟨hm, hc⟩, hk⟩ := hp
    have hfind := jwt.find_raw_of_mem book hd e hmem
    subst hs'
    refine ⟨e.raw, "signature", ?_, ?_⟩
    · rw [hfind]
      simp only [hm, hc]
    · rw [hfind]
      simp [hm, hk]

theorem demo.lib_RoundTrip : demo.lib.RoundTrip :=
  jwt.bookLib_RoundTrip _ (by decide)

/-! ## Claims about the credential authenticator -/

/-- C1 (counterexample): `alice` logs in with the password matching her stored
hash, the two clock readings of `createJWTTokenString` falling on either side
of a second boundary; the library signs and parses consistently. The token is
issued with `IssuedAt` 1700000001 and `ExpiresAt` 1700007200. Validated with
the same `SECRET_KEY` at the second 1700007201, two hours after `IssuedAt`, it
is refused. -/
theorem C1_refused_two_hours_after_IssuedAt :
    demo.tickLib.RoundTrip ∧
      user.AuthenticateUser demo.tickLib demo.compare (some "hello") demo.beforeTick
          demo.afterTick (user.InitRepo demo.pool demo.afterTick) "alice" "correctpw"
          demo.users =
        .ok { authUser := some { User := { Id := 7, Username := "alice"
                                           CreatedAt := { sec := 1600000000 } }
                                 Token := "tick.hs256.token" }
              err := none
              store := [{ demo.alice with last_login_at := demo.afterTick }]
              calls := [.FindByUsernameAndReturnPassword "alice", .UpdateWithLastLoginAt 7,
                        .FindByUsername "alice"] } ∧
      demo.tickLib.ParseUnverified "tick.hs256.token" =
        .parsed { Raw := "tick.hs256.token", Method := .HS256
                  Claims := { Username := "alice", UserId := 7
                              StandardClaims := { ExpiresAt := 1700007200
                                                  IssuedAt := 1700000001 } } }
          "tick.hs256.token" "signature" ∧
      (1700007201 : Int) = 1700000001 + 7200 ∧
      access_control.parseJwt demo.tickLib (some "hello") 1700007201 "tick.hs256.token" =
        .ok (none, some (entity.NewAppError "jwt token has expired or is not valid yet")) :=
  ⟨jwt.bookLib_RoundTrip _ (by decide), rfl, rfl, by decide, rfl⟩

/-- C1 (amended): round trip. For every successful `AuthenticateUser` (so the
repository returned a stored user and the password matched its hash), with
`SECRET_KEY` set to the same key at issuance and at validation, a jwt library
whose signing and parsing agree, and a validation clock reading `now` not
before the `IssuedAt` reading and at most 7200 seconds after the first clock
reading of `createJWTTokenString`, from which the expiry is computed,
`parseJwt` accepts the returned token: no error, the token is valid, and its
claims carry the stored user's `Username` and `Id`. -/
theorem C1_issued_token_is_accepted {σ : Type} (lib : jwt.Lib)
    (cmp : String → String → Option GoError) (key : String) (now₁ now₂ : time.Time) (now : Int)
    (repo : user.Repository σ) (username password : String) (store : σ) (ran : user.Ran σ)
    (hlib : lib.RoundTrip)
    (hlogin : user.AuthenticateUser lib cmp (some key) now₁ now₂ repo username password store =
      .ok ran)
    (hnil : ran.err = none)
    (hafter : now₂.Unix ≤ now) (hwithin : now ≤ now₁.Unix + 7200) :
    ∃ (au : user.AuthUser) (stored : entity.User) (tok : jwt.Token),
      ran.authUser = some au ∧
      (repo.FindByUsernameAndReturnPassword username store).1 = (some stored, none) ∧
      cmp stored.Password password = none ∧
      access_control.parseJwt lib (some key) now au.Token = .ok (some tok, none) ∧
      tok.Valid = true ∧
      tok.Claims.Username = stored.Username ∧ tok.Claims.UserId = stored.Id := by
  obtain ⟨u, up, t, h1, hc, hj, hau⟩ :=
    user.AuthenticateUser_success lib cmp (some key) now₁ now₂ repo username password store ran
      hlogin hnil
  obtain ⟨key', hk, hs⟩ := user.createJWTTokenString_ok lib (some key) now₁ now₂ u t hj
  cases hk
  obtain ⟨ss, sig, hp, hv⟩ := hlib _ _ _ hs
  refine ⟨_, u,
    { Raw := t, Method := jwt.SigningMethod.HS256
      Claims := { Username := u.Username, UserId := u.Id
                  StandardClaims := { ExpiresAt := now₁.sec + 7200, IssuedAt := now₂.sec } }
      Signature := sig, Valid := true }, hau, h1, hc, ?_, rfl, rfl, rfl⟩
  rw [access_control.parseJwt_parsed lib (some key) now t _ ss sig hp]
  have hw : jwt.StandardClaims.inWindow
      { ExpiresAt := now₁.sec + 7200, IssuedAt := now₂.sec } now = true := by
    rw [jwt.StandardClaims.inWindow_iff]
    exact ⟨Or.inr hwithin, Or.inr hafter, Or.inl rfl⟩
  simp [jwt.SigningMethod.isHMAC, hw, hv]

/-- C1 (witness): the amended statement where `alice` logs in with the password
matching her stored hash
at the epoch second 1700000000, and the token is validated an hour later. -/
theorem C1_issued_token_is_accepted_witness :
    user.AuthenticateUser demo.lib demo.compare (some "hello") demo.loginTime demo.loginTime
        (user.InitRepo demo.pool demo.loginTime) "alice" "correctpw" demo.users =
      .ok { authUser := some { User := { Id := 7, Username := "alice"
                                         CreatedAt := { sec := 1600000000 } }
                               Token := "alice.hs256.token" }
            err := none
            store := [{ demo.alice with last_login_at := demo.loginTime }]
            calls := [.FindByUsernameAndReturnPassword "alice", .UpdateWithLastLoginAt 7,
                      .FindByUsername "alice"] } ∧
      ∃ (au : user.AuthUser) (stored : entity.User) (tok : jwt.Token),
        some ({ User := { Id := 7, Username := "alice", CreatedAt := { sec := 1600000000 } }
                Token := "alice.hs256.token" } : user.AuthUser) = some au ∧
        ((user.InitRepo demo.pool demo.loginTime).FindByUsernameAndReturnPassword "alice"
          demo.users).1 = (some stored, none) ∧
        demo.compare stored.Password "correctpw" = none ∧
        access_control.parseJwt demo.lib (some "hello") 1700003600 au.Token =
          .ok (some tok, none) ∧
        tok.Valid = true ∧
        tok.Claims.Username = stored.Username ∧ tok.Claims.UserId = stored.Id :=
  ⟨rfl, C1_issued_token_is_accepted demo.lib demo.compare "hello" demo.loginTime demo.loginTime
    1700003600 (user.InitRepo demo.pool demo.loginTime) "alice" "correctpw" demo.users
    { authUser := some { User := { Id := 7, Username := "alice"
                                   CreatedAt := { sec := 1600000000 } }
                         Token := "alice.hs256.token" }
      err := none
      store := [{ demo.alice with last_login_at := demo.loginTime }]
      calls := [.FindByUsernameAndReturnPassword "alice", .UpdateWithLastLoginAt 7,
                .FindByUsername "alice"] }
    demo.lib_RoundTrip rfl rfl (by decide) (by decide)⟩

/-- C8: for every username the repository finds and every password that does
not match the stored hash, `AuthenticateUser` returns an error and no
`AuthUser` (no token is issued); the only repository call is the lookup, so
`UpdateWithLastLoginAt` is never called and the store is as the lookup left
it. -/
theorem C8_wrong_password_changes_nothing {σ : Type} (lib : jwt.Lib)
    (cmp : String → String → Option GoError) (K : Option String) (now₁ now₂ : time.Time)
    (repo : user.Repository σ) (username password : String) (store store₁ : σ)
    (stored : entity.User) (e : GoError)
    (hfound : repo.FindByUsernameAndReturnPassword username store = ((some stored, none), store₁))
    (hmismatch : cmp stored.Password password = some e) :
    ∃ ran : user.Ran σ,
      user.AuthenticateUser lib cmp K now₁ now₂ repo username password store = .ok ran ∧
      ran.authUser = none ∧ ran.err = some (entity.NewAppError e) ∧
      ran.store = store₁ ∧
      ran.calls = [user.Call.FindByUsernameAndReturnPassword username] ∧
      ∀ id, user.Call.UpdateWithLastLoginAt id ∉ ran.calls := by
  refine ⟨{ authUser := none, err := some (entity.NewAppError e), store := store₁,
            calls := [user.Call.FindByUsernameAndReturnPassword username] }, ?_, rfl, rfl, rfl, rfl,
    ?_⟩
  · simp [user.AuthenticateUser, hfound, hmismatch]
  · intro id
    simp

/-- C8 (witness): `alice` is stored and `wrongpw` does not match her hash; the
table `users` is unchanged, with her previous `last_login_at`. -/
theorem C8_wrong_password_changes_nothing_witness :
    ∃ ran : user.Ran (List sql.Row),
      user.AuthenticateUser demo.lib demo.compare (some "hello") demo.loginTime demo.loginTime
        (user.InitRepo demo.pool demo.loginTime) "alice" "wrongpw" demo.users = .ok ran ∧
      ran.authUser = none ∧
      ran.err = some (entity.NewAppError
        "crypto/bcrypt: hashedPassword is not the hash of the given password") ∧
      ran.store = [demo.alice] ∧
      ran.calls = [user.Call.FindByUsernameAndReturnPassword "alice"] ∧
      ∀ id, user.Call.UpdateWithLastLoginAt id ∉ ran.calls :=
  C8_wrong_password_changes_nothing demo.lib demo.compare (some "hello") demo.loginTime
    demo.loginTime (user.InitRepo demo.pool demo.loginTime) "alice" "wrongpw" demo.users
    [demo.alice]
    { Id := 7, Username := "alice", Password := "hash of correctpw"
      CreatedAt := { sec := 1600000000 } }
    "crypto/bcrypt: hashedPassword is not the hash of the given password" rfl rfl

/-- C9: no username enumeration at login. For any two login requests whose
bodies decode to a non-empty username and password, the first failing because
the query finds no row for the username (`sql.ErrNoRows`), the second because
the password does not match the hash of the row found, the authenticate
handler over the production repository answers both with status 403 and the
body "Unable to authenticate user". -/
theorem C9_login_failures_look_alike {σ : Type} (codec : json.Lib) (lib : jwt.Lib)
    (cmp : String → String → Option GoError) (K : Option String)
    (now₁ now₂ now₃ : time.Time) (pool : sql.DB σ) (r₁ r₂ : http.Request)
    (u₁ u₂ : entity.User) (store₁ store₂ after₁ after₂ : σ) (row₁ row₂ : sql.Row) (e : GoError)
    (hbody₁ : codec.DecodeUser r₁.Body = .ok (some u₁))
    (hbody₂ : codec.DecodeUser r₂.Body = .ok (some u₂))
    (hfilled₁ : u₁.Username ≠ "" ∧ u₁.Password ≠ "")
    (hfilled₂ : u₂.Username ≠ "" ∧ u₂.Password ≠ "")
    (habsent : pool.QueryRow
        "select id, username, password, created_at from users where username=$1"
        (.text u₁.Username) store₁ = ((some sql.Error.ErrNoRows, row₁), after₁))
    (hpresent : pool.QueryRow
        "select id, username, password, created_at from users where username=$1"
        (.text u₂.Username) store₂ = ((none, row₂), after₂))
    (hmismatch : cmp row₂.password u₂.Password = some e) :
    ∃ h₁ h₂ : handlers.Handled σ,
      handlers.authenticateHandler codec lib cmp K now₁ now₂ (user.InitRepo pool now₃) {} r₁
        store₁ = .ok h₁ ∧
      handlers.authenticateHandler codec lib cmp K now₁ now₂ (user.InitRepo pool now₃) {} r₂
        store₂ = .ok h₂ ∧
      h₁.w = { Code := some 403, Body := "Unable to authenticate user" } ∧
      h₂.w = { Code := some 403, Body := "Unable to authenticate user" } ∧
      h₁.w = h₂.w := by
  have hA : user.AuthenticateUser lib cmp K now₁ now₂ (user.InitRepo pool now₃)
      u₁.Username u₁.Password store₁ =
      .ok { authUser := none, err := some entity.ErrEntityNotFound, store := after₁
            calls := [user.Call.FindByUsernameAndReturnPassword u₁.Username] } := by
    simp [user.AuthenticateUser, user.InitRepo, user.PGRepository.FindByUsernameAndReturnPassword,
      habsent]
  have hB : user.AuthenticateUser lib cmp K now₁ now₂ (user.InitRepo pool now₃)
      u₂.Username u₂.Password store₂ =
      .ok { authUser := none, err := some (entity.NewAppError e), store := after₂
            calls := [user.Call.FindByUsernameAndReturnPassword u₂.Username] } := by
    simp [user.AuthenticateUser, user.InitRepo, user.PGRepository.FindByUsernameAndReturnPassword,
      hpresent, hmismatch]
  refine ⟨{ w := { Code := some 403, Body := "Unable to authenticate user" }, store := after₁
            calls := [user.Call.FindByUsernameAndReturnPassword u₁.Username] },
          { w := { Code := some 403, Body := "Unable to authenticate user" }, store := after₂
            calls := [user.Call.FindByUsernameAndReturnPassword u₂.Username] },
          ?_, ?_, rfl, rfl, rfl⟩
  · simp [handlers.authenticateHandler, hbody₁, hfilled₁, hA, entity.AppError.ptrEq,
      entity.ErrEntityNotFound, entity.ErrSecretKey, entity.ErrJwtCreation, entity.NewAppError,
      http.ResponseWriter.WriteHeader, http.ResponseWriter.Write, http.StatusForbidden]
  · simp [handlers.authenticateHandler, hbody₂, hfilled₂, hB, entity.AppError.ptrEq,
      entity.ErrSecretKey, entity.ErrJwtCreation, entity.NewAppError,
      http.ResponseWriter.WriteHeader, http.ResponseWriter.Write, http.StatusForbidden]

/-- C9 (witness): `bob` is not in the table `users`; `alice` is, and `wrongpw`
does not match her hash. -/
theorem C9_login_failures_look_alike_witness :
    ∃ h₁ h₂ : handlers.Handled (List sql.Row),
      handlers.authenticateHandler demo.codec demo.lib demo.compare (some "hello") demo.loginTime
        demo.loginTime (user.InitRepo demo.pool demo.loginTime) {} { Body := "bob/secret" }
        demo.users = .ok h₁ ∧
      handlers.authenticateHandler demo.codec demo.lib demo.compare (some "hello") demo.loginTime
        demo.loginTime (user.InitRepo demo.pool demo.loginTime) {} { Body := "alice/wrongpw" }
        demo.users = .ok h₂ ∧
      h₁.w = { Code := some 403, Body := "Unable to authenticate user" } ∧
      h₂.w = { Code := some 403, Body := "Unable to authenticate user" } ∧
      h₁.w = h₂.w :=
  C9_login_failures_look_alike demo.codec demo.lib demo.compare (some "hello") demo.loginTime
    demo.loginTime demo.loginTime demo.pool { Body := "bob/secret" } { Body := "alice/wrongpw" }
    { Username := "bob", Password := "secret" } { Username := "alice", Password := "wrongpw" }
    demo.users demo.users demo.users demo.users demo.noRow demo.alice
    "crypto/bcrypt: hashedPassword is not the hash of the given password"
    rfl rfl (by decide) (by decide) rfl rfl rfl

/-- C10: for every successful `AuthenticateUser`, the `User` of the returned
`AuthUser` has an empty `Password`, whatever hash the repository returned, and
its `Id`, `Username` and `CreatedAt` are those of the user returned by
`FindByUsernameAndReturnPassword`. -/
theorem C10_result_carries_no_password {σ : Type} (lib : jwt.Lib)
    (cmp : String → String → Option GoError) (K : Option String) (now₁ now₂ : time.Time)
    (repo : user.Repository σ) (username password : String) (store : σ) (ran : user.Ran σ)
    (hlogin : user.AuthenticateUser lib cmp K now₁ now₂ repo username password store = .ok ran)
    (hnil : ran.err = none) :
    ∃ (au : user.AuthUser) (stored : entity.User),
      ran.authUser = some au ∧
      (repo.FindByUsernameAndReturnPassword username store).1 = (some stored, none) ∧
      au.User.Password = "" ∧ au.User.Id = stored.Id ∧
      au.User.Username = stored.Username ∧ au.User.CreatedAt = stored.CreatedAt := by
  obtain ⟨u, up, t, h1, -, -, hau⟩ :=
    user.AuthenticateUser_success lib cmp K now₁ now₂ repo username password store ran hlogin hnil
  exact ⟨_, u, hau, h1, rfl, rfl, rfl, rfl⟩

/-- C10 (witness): the login of `alice`, whose stored hash is not empty. -/
theorem C10_result_carries_no_password_witness :
    ((user.InitRepo demo.pool demo.loginTime).FindByUsernameAndReturnPassword "alice"
        demo.users).1 =
      (some { Id := 7, Username := "alice", Password := "hash of correctpw"
              CreatedAt := { sec := 1600000000 } }, none) ∧
    ∃ (au : user.AuthUser) (stored : entity.User),
      some ({ User := { Id := 7, Username := "alice", CreatedAt := { sec := 1600000000 } }
              Token := "alice.hs256.token" } : user.AuthUser) = some au ∧
      ((user.InitRepo demo.pool demo.loginTime).FindByUsernameAndReturnPassword "alice"
        demo.users).1 = (some stored, none) ∧
      au.User.Password = "" ∧ au.User.Id = stored.Id ∧
      au.User.Username = stored.Username ∧ au.User.CreatedAt = stored.CreatedAt :=
  ⟨rfl, C10_result_carries_no_password demo.lib demo.compare (some "hello") demo.loginTime
    demo.loginTime (user.InitRepo demo.pool demo.loginTime) "alice" "correctpw" demo.users
    { authUser := some { User := { Id := 7, Username := "alice"
                                   CreatedAt := { sec := 1600000000 } }
                         Token := "alice.hs256.token" }
      err := none
      store := [{ demo.alice with last_login_at := demo.loginTime }]
      calls := [.FindByUsernameAndReturnPassword "alice", .UpdateWithLastLoginAt 7,
                .FindByUsername "alice"] }
    rfl rfl⟩

/-! ## Claims about the repositories, the minted claims and the user handler -/

/-- C11 (the code at the failing input): `alice` logs in with her password
against the production repository. The row of `alice` now holds the reading
`demo.loginTime` as `last_login_at`, but the returned user carries the zero
time as `LastLoginAt`. For every pool, the user `FindByUsername` returns has
the zero time as `LastLoginAt`: its query does not select `last_login_at`. -/
theorem C11_returned_last_login_is_zero_time :
    user.AuthenticateUser demo.lib demo.compare (some "hello") demo.loginTime demo.loginTime
        (user.InitRepo demo.pool demo.loginTime) "alice" "correctpw" demo.users =
      .ok { authUser := some { User := { Id := 7, Username := "alice"
                                         CreatedAt := { sec := 1600000000 }
                                         LastLoginAt := time.Time.zero }
                               Token := "alice.hs256.token" }
            err := none
            store := [{ id := 7, username := "alice", password := "hash of correctpw"
                        created_at := { sec := 1600000000 }
                        last_login_at := demo.loginTime }]
            calls := [.FindByUsernameAndReturnPassword "alice", .UpdateWithLastLoginAt 7,
                      .FindByUsername "alice"] } ∧
      time.Time.zero ≠ demo.loginTime ∧
      ∀ (σ : Type) (pool : sql.DB σ) (username : String) (store : σ),
        ((user.PGRepository.FindByUsername pool username store).1.1.map
          (fun u => u.LastLoginAt)).getD time.Time.zero = time.Time.zero := by
  refine ⟨rfl, by decide, ?_⟩
  intro σ pool username store
  unfold user.PGRepository.FindByUsername
  dsimp only
  split
  · rfl
  · split <;> rfl

/-- C12 (counterexample): the two clock readings of `createJWTTokenString`
fall on either side of a second boundary. With a library that signs any
claims and spells out the seconds from `IssuedAt` to `ExpiresAt`, the token
says 7199, not 7200; with the book library, the token returned is the one
whose claims have `ExpiresAt` 1700007200 and `IssuedAt` 1700000001, and
`ExpiresAt` is not `IssuedAt + 7200`. -/
theorem C12_readings_across_a_second :
    user.createJWTTokenString demo.spanLib (some "hello") demo.beforeTick demo.afterTick
        { Id := 7, Username := "alice" } = ("alice expires 7199 s after issuance", none) ∧
      user.createJWTTokenString demo.tickLib (some "hello") demo.beforeTick demo.afterTick
        { Id := 7, Username := "alice" } = ("tick.hs256.token", none) ∧
      demo.tickLib.ParseUnverified "tick.hs256.token" =
        .parsed { Raw := "tick.hs256.token", Method := .HS256
                  Claims := { Username := "alice", UserId := 7
                              StandardClaims := { ExpiresAt := 1700007200
                                                  IssuedAt := 1700000001 } } }
          "tick.hs256.token" "signature" ∧
      (1700007200 : Int) ≠ 1700000001 + 7200 :=
  ⟨by decide, rfl, rfl, by decide⟩

/-- C12 (amended): for every user and every pair of clock readings, the claims
`createJWTTokenString` hands to the signer, whatever the library and the key,
carry the user's `Username` and `Id`, an `ExpiresAt` that is the Unix second
of the first clock reading plus 7200, and an `IssuedAt` that is the Unix
second of the second reading; so `ExpiresAt = IssuedAt + 7200` exactly when
both readings fall in the same second. -/
theorem C12_expiry_is_two_hours_after_first_reading (now₁ now₂ : time.Time) (u : entity.User) :
    ∃ claims : entity.JwtClaims,
      claims.Username = u.Username ∧ claims.UserId = u.Id ∧
      claims.StandardClaims.ExpiresAt = now₁.Unix + 7200 ∧
      claims.StandardClaims.IssuedAt = now₂.Unix ∧
      (claims.StandardClaims.ExpiresAt = claims.StandardClaims.IssuedAt + 7200 ↔
        now₁.Unix = now₂.Unix) ∧
      ∀ (lib : jwt.Lib) (key : String),
        user.createJWTTokenString lib (some key) now₁ now₂ u =
          match lib.SignedString jwt.SigningMethod.HS256 claims key with
          | .error _ => ("", some entity.ErrJwtCreation)
          | .ok tokenString => (tokenString, none) := by
  refine ⟨{ Username := u.Username, UserId := u.Id
            StandardClaims := { ExpiresAt := now₁.Unix + 7200, IssuedAt := now₂.Unix } },
    rfl, rfl, rfl, rfl, ?_, ?_⟩
  · exact ⟨fun h => by simpa using h, fun h => by simp [h]⟩
  · intro lib key
    simp only [user.createJWTTokenString, time.Time.Add, time.Time.Unix, time.Hour]
    rfl

/-- C12 (witness): the amended statement at the readings `demo.beforeTick` and
`demo.afterTick`, which lie in different seconds. -/
theorem C12_expiry_is_two_hours_after_first_reading_witness :
    ∃ claims : entity.JwtClaims,
      claims.Username = "alice" ∧ claims.UserId = 7 ∧
      claims.StandardClaims.ExpiresAt = demo.beforeTick.Unix + 7200 ∧
      claims.StandardClaims.IssuedAt = demo.afterTick.Unix ∧
      (claims.StandardClaims.ExpiresAt = claims.StandardClaims.IssuedAt + 7200 ↔
        demo.beforeTick.Unix = demo.afterTick.Unix) ∧
      ∀ (lib : jwt.Lib) (key : String),
        user.createJWTTokenString lib (some key) demo.beforeTick demo.afterTick
            { Id := 7, Username := "alice" } =
          match lib.SignedString jwt.SigningMethod.HS256 claims key with
          | .error _ => ("", some entity.ErrJwtCreation)
          | .ok tokenString => (tokenString, none) :=
  C12_expiry_is_two_hours_after_first_reading demo.beforeTick demo.afterTick
    { Id := 7, Username := "alice" }

/-- C13 (the code at the failing input): no row of `users` has the id 42.
`user.PGRepository.FindByID` returns no user and a new error with the text of
`sql.ErrNoRows`, which is not `ErrEntityNotFound`, while
`access_control.Repo.FindById` returns `ErrEntityNotFound`. For every pool,
`FindByID` wraps whatever error the scan returns and never reaches the
comparison with `sql.ErrNoRows`. -/
theorem C13_FindByID_wraps_no_rows :
    demo.pool.QueryRow "select id, username, created_at from users where id=$1" (.int 42)
        demo.users = ((some sql.Error.ErrNoRows, demo.noRow), demo.users) ∧
      user.PGRepository.FindByID demo.pool 42 demo.users =
        ((none, some (entity.NewAppError "sql: no rows in result set")), demo.users) ∧
      access_control.Repo.FindById demo.pool 42 demo.users =
        ((none, some entity.ErrEntityNotFound), demo.users) ∧
      entity.NewAppError "sql: no rows in result set" ≠ entity.ErrEntityNotFound ∧
      errors.Is (entity.NewAppError "sql: no rows in result set") entity.ErrEntityNotFound =
        false ∧
      ∀ (σ : Type) (pool : sql.DB σ) (userId : Int) (store : σ),
        user.PGRepository.FindByID pool userId store =
          match pool.QueryRow "select id, username, created_at from users where id=$1"
              (.int userId) store with
          | ((some e, _), after) => ((none, some (entity.NewAppError e.text)), after)
          | ((none, row), after) =>
            ((some { Id := row.id, Username := row.username, CreatedAt := row.created_at },
              none), after) := by
  refine ⟨rfl, rfl, rfl, by decide, by decide, ?_⟩
  intro σ pool userId store
  have key : ∀ q : (Option sql.Error × sql.Row) × σ,
      (match q with
        | ((err, row), store) =>
          match err with
          | some e => ((none, some (entity.NewAppError e.text)), store)
          | none =>
            if some sql.Error.ErrNoRows == err then
              ((none, some entity.ErrEntityNotFound), store)
            else
              ((some ({ Id := row.id, Username := row.username
                        CreatedAt := row.created_at } : entity.User), none), store)) =
      (match q with
        | ((some e, _), after) => ((none, some (entity.NewAppError e.text)), after)
        | ((none, row), after) =>
          ((some ({ Id := row.id, Username := row.username
                    CreatedAt := row.created_at } : entity.User), none), after)) := by
    rintro ⟨⟨err, row⟩, after⟩
    cases err <;> simp
  exact key _

/-- C15 (the code at the failing input): `alice` is stored, so the production
`FindByUsername` returns her user and a nil `*AppError`; the handler of
`GET /users/alice` answers 500 with the body "Error finding user" and never
encodes the user. For every repository the handler answers 404 when no user
is returned and 500 otherwise: the `error` that `GetUserByUsername` returns
always has a dynamic type, so `err != nil` holds. -/
theorem C15_found_user_is_answered_500 :
    (user.InitRepo demo.pool demo.loginTime).FindByUsername "alice" demo.users =
        ((some { Id := 7, Username := "alice", CreatedAt := { sec := 1600000000 } }, none),
          demo.users) ∧
      handlers.userHandler demo.codec (user.InitRepo demo.pool demo.loginTime) {} "alice"
          demo.users =
        { w := { Code := some 500, Body := "Error finding user" }, store := demo.users
          calls := [user.Call.FindByUsername "alice"] } ∧
      demo.codec.EncodeUser
        (some { Id := 7, Username := "alice", CreatedAt := { sec := 1600000000 } }) =
        .ok "user" ∧
      ∀ (σ : Type) (codec : json.Lib) (repo : user.Repository σ) (w : http.ResponseWriter)
        (username : String) (store : σ),
        handlers.userHandler codec repo w username store =
          match repo.FindByUsername username store with
          | ((none, _), after) =>
            { w := (w.WriteHeader http.StatusNotFound).Write "Error finding user"
              store := after, calls := [user.Call.FindByUsername username] }
          | ((some _, _), after) =>
            { w := (w.WriteHeader http.StatusInternalServerError).Write "Error finding user"
              store := after, calls := [user.Call.FindByUsername username] } := by
  refine ⟨rfl, rfl, rfl, ?_⟩
  intro σ codec repo w username store
  unfold handlers.userHandler user.GetUserByUsername
  rcases repo.FindByUsername username store with ⟨⟨u, err⟩, after⟩
  cases u <;> simp [ErrorInterface.ofAppError, ErrorInterface.notNil]

/-- The flags of the error `jwt.ParseWithClaims` returns, by what
`ParseUnverified` made of the token string. -/
theorem jwt.ParseWithClaims_flags (lib : jwt.Lib) (now : Int) (s : String)
    (keyFunc : jwt.Keyfunc) (tok : Option jwt.Token) (ve : jwt.ValidationError)
    (herr : jwt.ParseWithClaims lib now s keyFunc = (tok, some ve)) :
    ((∃ e, lib.ParseUnverified s = .malformed e) ∧ ve.Errors = jwt.ValidationErrorMalformed) ∨
    ((∃ e, lib.ParseUnverified s = .unverifiable e) ∧
      ve.Errors = jwt.ValidationErrorUnverifiable) ∨
    ((∃ t ss sig err, lib.ParseUnverified s = .parsed t ss sig ∧ keyFunc t = .error err) ∧
      ve.Errors = jwt.ValidationErrorUnverifiable) ∨
    ((∃ t ss sig key, lib.ParseUnverified s = .parsed t ss sig ∧ keyFunc t = .ok key) ∧
      ve.Errors ≠ 0 ∧ ve.Errors &&& jwt.ValidationErrorMalformed = 0) := by
  unfold jwt.ParseWithClaims at herr
  cases hp : lib.ParseUnverified s with
  | malformed e =>
    rw [hp] at herr
    simp only [Prod.mk.injEq, Option.some.injEq] at herr
    exact Or.inl ⟨⟨e, rfl⟩, by rw [← herr.2]⟩
  | unverifiable e =>
    rw [hp] at herr
    simp only [Prod.mk.injEq, Option.some.injEq] at herr
    exact Or.inr (Or.inl ⟨⟨e, rfl⟩, by rw [← herr.2]⟩)
  | parsed t ss sig =>
    rw [hp] at herr
    dsimp only at herr
    cases hk : keyFunc t with
    | error err =>
      rw [hk] at herr
      simp only [Prod.mk.injEq, Option.some.injEq] at herr
      exact Or.inr (Or.inr (Or.inl ⟨⟨t, ss, sig, err, rfl, hk⟩, by rw [← herr.2]⟩))
    | ok key =>
      rw [hk] at herr
      dsimp only at herr
      refine Or.inr (Or.inr (Or.inr ⟨⟨t, ss, sig, key, rfl, hk⟩, ?_⟩))
      have hsig := jwt.flags_or_signature_ne_zero
      cases hv : t.Claims.StandardClaims.Valid now lib.durationString with
      | none =>
        cases hs : lib.Verify t.Method ss sig key with
        | none =>
          simp [entity.JwtClaims.Valid, hv, hs, jwt.ValidationError.valid] at herr
        | some err =>
          simp [entity.JwtClaims.Valid, hv, hs, jwt.ValidationError.valid,
            jwt.ValidationErrorSignatureInvalid] at herr
          rw [← herr.2]
          dsimp only
          exact ⟨by decide, by decide⟩
      | some e =>
        obtain ⟨h0, h1, h2⟩ := jwt.StandardClaims.Valid_flags _ _ _ _ hv
        cases hs : lib.Verify t.Method ss sig key with
        | none =>
          simp [entity.JwtClaims.Valid, hv, hs, jwt.ValidationError.valid, h0] at herr
          rw [← herr.2]
          exact ⟨h0, h1⟩
        | some err =>
          simp [entity.JwtClaims.Valid, hv, hs, jwt.ValidationError.valid, hsig] at herr
          rw [← herr.2]
          exact ⟨hsig _, h2⟩

/-- C14: the error classification of `parseJwt` is two-valued. For every token
string for which `jwt.ParseWithClaims` reports a validation error, `parseJwt`
returns no token, and the error message is "jwt token has been malformed" when
the malformed flag is set, which is exactly when the token string does not
decode, and "jwt token has expired or is not valid yet" for every other
validation error; a non-HMAC signing method and an unset `SECRET_KEY` are such
other errors, with the flag `ValidationErrorUnverifiable`. -/
theorem C14_parseJwt_classifies_in_two (lib : jwt.Lib) (K : Option String) (now : Int)
    (s : String) (tok : Option jwt.Token) (ve : jwt.ValidationError)
    (herr : jwt.ParseWithClaims lib now s (access_control.keyFunc K) = (tok, some ve)) :
    access_control.parseJwt lib K now s =
        .ok (none, some (entity.NewAppError
          (if ve.Errors &&& jwt.ValidationErrorMalformed ≠ 0 then "jwt token has been malformed"
           else "jwt token has expired or is not valid yet"))) ∧
      ((ve.Errors &&& jwt.ValidationErrorMalformed ≠ 0) ↔
        ∃ e, lib.ParseUnverified s = .malformed e) ∧
      (∀ t ss sig, lib.ParseUnverified s = .parsed t ss sig →
        (t.Method.isHMAC = false ∨ K = none) →
        ve.Errors = jwt.ValidationErrorUnverifiable ∧
          ve.Errors &&& jwt.ValidationErrorMalformed = 0) := by
  have hflag := jwt.flags_or_ne_zero
  refine ⟨?_, ?_, ?_⟩
  · unfold access_control.parseJwt
    rw [herr]
    by_cases hm : ve.Errors &&& jwt.ValidationErrorMalformed = 0
    · simp [hm, hflag]
    · simp [hm]
  · rcases jwt.ParseWithClaims_flags lib now s _ tok ve herr with
      ⟨⟨e, he⟩, hv⟩ | ⟨⟨e, he⟩, hv⟩ | ⟨⟨t, ss, sig, err, he, -⟩, hv⟩ |
      ⟨⟨t, ss, sig, key, he, -⟩, -, hv⟩
    · rw [hv]
      exact ⟨fun _ => ⟨e, he⟩, fun _ => by decide⟩
    · rw [hv, he]
      exact ⟨fun h => absurd h (by decide), fun ⟨_, h⟩ => by cases h⟩
    · rw [hv, he]
      exact ⟨fun h => absurd h (by decide), fun ⟨_, h⟩ => by cases h⟩
    · rw [he]
      exact ⟨fun h => absurd hv h, fun ⟨_, h⟩ => by cases h⟩
  · intro t ss sig hp hcase
    rcases jwt.ParseWithClaims_flags lib now s _ tok ve herr with
      ⟨⟨e, he⟩, -⟩ | ⟨⟨e, he⟩, -⟩ | ⟨-, hv⟩ | ⟨⟨t', ss', sig', key, he, hk⟩, -, -⟩
    · rw [hp] at he; cases he
    · rw [hp] at he; cases he
    · rw [hv]; exact ⟨rfl, by decide⟩
    · rw [hp] at he
      cases he
      rcases hcase with hcase | hcase
      · simp [access_control.keyFunc, hcase] at hk
      · subst hcase
        cases hh : t.Method.isHMAC <;> simp [access_control.keyFunc, hh] at hk

/-- C14 (witness): the token string `hello.hello`, which does not decode. -/
theorem C14_parseJwt_classifies_in_two_witness :
    jwt.ParseWithClaims demo.lib demo.now "hello.hello" (access_control.keyFunc (some "hello")) =
        (none, some { text := "token contains an invalid number of segments", Errors := 1 }) ∧
      access_control.parseJwt demo.lib (some "hello") demo.now "hello.hello" =
        .ok (none, some (entity.NewAppError "jwt token has been malformed")) ∧
      access_control.parseJwt demo.lib (some "hello") demo.now "" =
        .ok (none, some (entity.NewAppError "jwt token has been malformed")) ∧
      access_control.parseJwt demo.lib (some "hello") demo.now "es256.token" =
        .ok (none, some (entity.NewAppError "jwt token has expired or is not valid yet")) ∧
      access_control.parseJwt demo.lib none demo.now "plain.hs256.token" =
        .ok (none, some (entity.NewAppError "jwt token has expired or is not valid yet")) :=
  ⟨rfl, (C14_parseJwt_classifies_in_two demo.lib (some "hello") demo.now "hello.hello" none
    { text := "token contains an invalid number of segments", Errors := 1 } rfl).1,
    rfl, rfl, rfl⟩
